import Mathlib

/-!
# HT32F523xx NOR flash driver (`src/flash/nor/ht32f523xx.c`)

A shallow embedding of the flash driver and theorems about it.

* The debug link (`target_read_u32`, `target_write_u32`, `alive_sleep`) is outside the
  driver.  It is a parameter `Link`: a deterministic responder whose answer to an access may
  depend on the whole history of accesses made so far.  Every access is appended to a
  `Trace`, so that "which register writes were issued, in which order" is a statement about
  a list.
* Sector arrays are lists; an access to `bank->sectors[i]` or `buffer[i]` outside the list is
  undefined behaviour in C and is the result `none` here.
* Machine integers are natural numbers; a 32-bit wrap is written `% 2 ^ 32` where the C
  arithmetic can reach it.
-/

namespace HT32F523xx

/-! ## Constants of the driver -/

def FMC_REG_BASE : Nat := 0x40080000
def FMC_REG_TADR : Nat := 0x000
def FMC_REG_WRDR : Nat := 0x004
def FMC_REG_OCMR : Nat := 0x00C
def FMC_REG_OPCR : Nat := 0x010
def FMC_REG_PPSR : Nat := 0x020
def FMC_REG_PNSR : Nat := 0x184

def FMC_OPM_MASK : Nat := 0x1E
def FMC_COMMIT : Nat := 0xA <<< 1
def FMC_FINISHED : Nat := 0xE <<< 1
def FMC_START : Nat := 0x6 <<< 1

def FMC_CMD_MASK : Nat := 0xF
def FMC_CMD_WORD_PROG : Nat := 0x4
def FMC_CMD_PAGE_ERASE : Nat := 0x8
def FMC_CMD_MASS_ERASE : Nat := 0xA

def OPTION_BYTE_BASE : Nat := 0x1FF00000
def OPT_OB_PP : Nat := 0x000
def OPT_OB_CP : Nat := 0x010

def FLASH_ERASE_TIMEOUT : Int := 1000

/-! ## Error codes

The headers that define the error codes are not among the sources; the numbers are those of
the host framework.  The theorems name the constants and use of the numbers only that the
error codes differ from `ERROR_OK`. -/

/-- Modelled from the spec: the success code of the host framework (header not in the
sources). -/
def ERROR_OK : Int := 0
/-- Modelled from the spec: the generic failure returned on `Timeout` (header not in the
sources). -/
def ERROR_FAIL : Int := -4
/-- Modelled from the spec: the error kind `TargetNotHalted` (header not in the sources). -/
def ERROR_TARGET_NOT_HALTED : Int := -304
/-- Modelled from the spec: the error of a command called with too few arguments (header not
in the sources). -/
def ERROR_COMMAND_SYNTAX_ERROR : Int := -601
/-- Modelled from the spec: the error kind `AlignmentError` (header not in the sources). -/
def ERROR_FLASH_DST_BREAKS_ALIGNMENT : Int := -904
/-- Modelled from the spec: the error kind `UnsupportedOperation` (header not in the
sources). -/
def ERROR_FLASH_OPER_UNSUPPORTED : Int := -908

/-! ## The debug link -/

/-- One access of the driver to the outside world. -/
inductive Event where
  | write (address value : Nat)
  | read (address : Nat)
  | sleep (ms : Nat)
  deriving DecidableEq, Repr

/-- The accesses made so far, oldest first. -/
abbrev Trace := List Event

/-- The behaviour of the debug link: the return code of a 32-bit write, and the return code
and the value left in the destination of a 32-bit read, each as a function of the accesses
made before it. -/
structure Link where
  write_u32 : Trace → Nat → Nat → Int
  read_u32 : Trace → Nat → Int × Nat

/-- Modelled from the spec: `target_write_u32` of the RegisterLink (not in the sources), a
synchronous write of a 32-bit value; the access is recorded. -/
def target_write_u32 (link : Link) (address value : Nat) (t : Trace) : Int × Trace :=
  (link.write_u32 t address value, t ++ [Event.write address value])

/-- Modelled from the spec: `target_read_u32` of the RegisterLink (not in the sources), a
synchronous read of a 32-bit value: the return code, the `uint32_t` left in the destination
and the trace with the access recorded. -/
def target_read_u32 (link : Link) (address : Nat) (t : Trace) : Int × Nat × Trace :=
  ((link.read_u32 t address).1, (link.read_u32 t address).2 % 2 ^ 32, t ++ [Event.read address])

/-- Modelled from the spec: `alive_sleep` of the host framework (not in the sources); the
sleep is recorded. -/
def alive_sleep (ms : Nat) (t : Trace) : Trace :=
  t ++ [Event.sleep ms]

/-! ## Data model -/

inductive target_state where
  | TARGET_UNKNOWN
  | TARGET_RUNNING
  | TARGET_HALTED
  | TARGET_RESET
  | TARGET_DEBUG_RUNNING
  deriving DecidableEq, Repr

structure target where
  state : target_state
  deriving DecidableEq, Repr

/-- The sector descriptor `struct flash_sector`: `offset` and `size` are `uint32_t`,
`is_erased` and `is_protected` are `int` (`-1` unknown, `0` no, `1` yes). -/
structure flash_sector where
  offset : Nat
  size : Nat
  is_erased : Int
  is_protected : Int
  deriving DecidableEq, Repr

/-- The fields of `struct flash_bank` the driver uses. -/
structure flash_bank where
  target : target
  base : Nat
  size : Nat
  num_sectors : Nat
  sectors : List flash_sector
  deriving DecidableEq, Repr

/-- The assignment `sectors[i].field = v`: `none` when `i` is outside the array. -/
def sector_store (sectors : List flash_sector) (i : Nat) (f : flash_sector → flash_sector) :
    Option (List flash_sector) :=
  match sectors[i]? with
  | none => none
  | some s => some (sectors.set i (f s))

/-! ## The driver -/

def ht32f523xx_get_flash_status (link : Link) (t : Trace) : Int × Nat × Trace :=
  target_read_u32 link (FMC_REG_BASE + FMC_REG_OPCR) t

/-- The loop of `ht32f523xx_wait_status_busy`.  The counter `timeout` is a C `int` that the
loop only compares with `0` and decrements; the argument `n` is its non-negative part
`max timeout 0`, so that `timeout-- <= 0` holds exactly when `n = 0`. -/
def wait_status_busy_loop (link : Link) : Nat → Trace → Int × Trace
  | n, t =>
    let (retval, status, t1) := ht32f523xx_get_flash_status link t
    if retval ≠ ERROR_OK then (retval, t1)
    else if (status &&& FMC_OPM_MASK) = FMC_FINISHED ∨ (status &&& FMC_OPM_MASK) = FMC_START then
      (ERROR_OK, t1)
    else
      match n with
      | 0 => (ERROR_FAIL, t1)
      | m + 1 => wait_status_busy_loop link m (alive_sleep 10 t1)

def ht32f523xx_wait_status_busy (link : Link) (timeout : Int) (t : Trace) : Int × Trace :=
  wait_status_busy_loop link timeout.toNat t

/-- The loop of `ht32f523xx_erase` with `n` sectors left, the next one being `i`. -/
def erase_loop (link : Link) : Nat → Nat → flash_bank → Trace → Option (Int × flash_bank × Trace)
  | 0, _, bank, t => some (ERROR_OK, bank, t)
  | n + 1, i, bank, t =>
    match bank.sectors[i]? with
    | none => none
    | some s =>
      let (r1, t1) := target_write_u32 link (FMC_REG_BASE + FMC_REG_TADR) s.offset t
      if r1 ≠ ERROR_OK then some (r1, bank, t1) else
      let (r2, t2) := target_write_u32 link (FMC_REG_BASE + FMC_REG_OCMR) FMC_CMD_PAGE_ERASE t1
      if r2 ≠ ERROR_OK then some (r2, bank, t2) else
      let (r3, t3) := target_write_u32 link (FMC_REG_BASE + FMC_REG_OPCR) FMC_COMMIT t2
      if r3 ≠ ERROR_OK then some (r3, bank, t3) else
      let (r4, t4) := ht32f523xx_wait_status_busy link FLASH_ERASE_TIMEOUT t3
      if r4 ≠ ERROR_OK then some (r4, bank, t4) else
      match sector_store bank.sectors i (fun x => { x with is_erased := 1 }) with
      | none => none
      | some sectors => erase_loop link n (i + 1) { bank with sectors := sectors } t4

/-- The function `ht32f523xx_erase`.  The loop `for (i = first; i <= last; ++i)` runs
`last + 1 - first` times (not at all when `last < first`); the counter `i` cannot wrap
before it leaves the sector array. -/
def ht32f523xx_erase (link : Link) (bank : flash_bank) (first last : Nat) (t : Trace) :
    Option (Int × flash_bank × Trace) :=
  if bank.target.state ≠ target_state.TARGET_HALTED then
    some (ERROR_TARGET_NOT_HALTED, bank, t)
  else
    erase_loop link (last + 1 - first) first bank t

def ht32f523xx_protect (_bank : flash_bank) (_set : Int) (_first _last : Nat) : Int :=
  ERROR_FLASH_OPER_UNSUPPORTED

/-- The type `uint8_t` of the bytes of a write buffer. -/
abbrev uint8_t := Fin 256

/-- The loop of `ht32f523xx_write` with `n` words left, the next one at `buffer[i]`, to be
programmed at `addr`.  The bytes are promoted to `int`, shifted and or-ed, and the result is
converted to `uint32_t`; `addr += 4` is 32-bit arithmetic. -/
def write_loop (link : Link) (buffer : List uint8_t) :
    Nat → Nat → Nat → Trace → Option (Int × Trace)
  | 0, _, _, t => some (ERROR_OK, t)
  | n + 1, i, addr, t =>
    match buffer[i]?, buffer[i + 1]?, buffer[i + 2]?, buffer[i + 3]? with
    | some b0, some b1, some b2, some b3 =>
      let word := ((b0.val <<< 0) ||| (b1.val <<< 8) ||| (b2.val <<< 16) ||| (b3.val <<< 24)) % 2 ^ 32
      let (r1, t1) := target_write_u32 link (FMC_REG_BASE + FMC_REG_TADR) addr t
      if r1 ≠ ERROR_OK then some (r1, t1) else
      let (r2, t2) := target_write_u32 link (FMC_REG_BASE + FMC_REG_WRDR) word t1
      if r2 ≠ ERROR_OK then some (r2, t2) else
      let (r3, t3) := target_write_u32 link (FMC_REG_BASE + FMC_REG_OCMR) FMC_CMD_WORD_PROG t2
      if r3 ≠ ERROR_OK then some (r3, t3) else
      let (r4, t4) := target_write_u32 link (FMC_REG_BASE + FMC_REG_OPCR) FMC_COMMIT t3
      if r4 ≠ ERROR_OK then some (r4, t4) else
      let (r5, t5) := ht32f523xx_wait_status_busy link FLASH_ERASE_TIMEOUT t4
      if r5 ≠ ERROR_OK then some (r5, t5) else
      write_loop link buffer n (i + 4) ((addr + 4) % 2 ^ 32) t5
    | _, _, _, _ => none

/-- The function `ht32f523xx_write`.  After the two alignment checks `count` is a multiple of
4 and the loop `for (i = 0; i < count; i += 4)` runs `count / 4` times. -/
def ht32f523xx_write (link : Link) (bank : flash_bank) (buffer : List uint8_t)
    (offset count : Nat) (t : Trace) : Option (Int × flash_bank × Trace) :=
  if bank.target.state ≠ target_state.TARGET_HALTED then
    some (ERROR_TARGET_NOT_HALTED, bank, t)
  else if offset &&& 0x03 ≠ 0 then
    some (ERROR_FLASH_DST_BREAKS_ALIGNMENT, bank, t)
  else if count &&& 0x3 ≠ 0 then
    some (ERROR_FLASH_DST_BREAKS_ALIGNMENT, bank, t)
  else
    match write_loop link buffer (count / 4) 0 offset t with
    | none => none
    | some (r, t1) => some (r, bank, t1)

/-- The sector array that the loop of `ht32f523xx_probe` fills: entry `i` of `num_pages`
entries; `i * page_size` is C arithmetic converted to the `uint32_t` field. -/
def probe_sectors (page_size num_pages : Nat) : List flash_sector :=
  (List.range num_pages).map fun i =>
    { offset := (i * page_size) % 2 ^ 32, size := page_size, is_erased := -1, is_protected := 1 }

/-- The function `ht32f523xx_probe`: the old array is freed and a new one is allocated and
filled (the allocation is taken to succeed). -/
def ht32f523xx_probe (bank : flash_bank) : Int × flash_bank :=
  let page_size := 512
  let num_pages := bank.size / page_size
  (ERROR_OK, { bank with base := 0x0, num_sectors := num_pages,
                         sectors := probe_sectors page_size num_pages })

def ht32f523xx_auto_probe (bank : flash_bank) : Int × flash_bank :=
  ht32f523xx_probe bank

/-- The four reads of the page-protection words in `ht32f523xx_protect_check`, from word `i`
on, `n` words left; the return codes are dropped, as in the source. -/
def read_ob_pp (link : Link) : Nat → Nat → Trace → List Nat × Trace
  | 0, _, t => ([], t)
  | n + 1, i, t =>
    let (_, v, t1) := target_read_u32 link ((OPTION_BYTE_BASE + OPT_OB_PP) + (i <<< 2)) t
    let (vs, t2) := read_ob_pp link n (i + 1) t1
    (v :: vs, t2)

/-- The expression `(ob_pp[i / 32] << (i % 32)) & 1` of `ht32f523xx_protect_check`; the
shift is a `uint32_t` shift. -/
def page_pair_bit (ob_pp : List Nat) (i : Nat) : Nat :=
  ((ob_pp.getD (i / 32) 0 <<< (i % 32)) % 2 ^ 32) &&& 1

/-- The decoding loop of `ht32f523xx_protect_check` with `n` page pairs left, the next one
being `i`. -/
def protect_loop (ob_pp : List Nat) : Nat → Nat → List flash_sector → Option (List flash_sector)
  | 0, _, sectors => some sectors
  | n + 1, i, sectors =>
    let bit := page_pair_bit ob_pp i
    match sector_store sectors (2 * i)
        (fun x => { x with is_protected := if bit ≠ 0 then 0 else 1 }) with
    | none => none
    | some s1 =>
      match sector_store s1 ((2 * i) + 1)
          (fun x => { x with is_protected := if bit ≠ 0 then 0 else 1 }) with
      | none => none
      | some s2 => protect_loop ob_pp n (i + 1) s2

def ht32f523xx_protect_check (link : Link) (bank : flash_bank) (t : Trace) :
    Option (Int × flash_bank × Trace) :=
  let (ob_pp, t1) := read_ob_pp link 4 0 t
  let (_, _, t2) := target_read_u32 link (OPTION_BYTE_BASE + OPT_OB_CP) t1
  match protect_loop ob_pp 128 0 bank.sectors with
  | none => none
  | some sectors => some (ERROR_OK, { bank with sectors := sectors }, t2)

def ht32f523xx_mass_erase (link : Link) (bank : flash_bank) (t : Trace) :
    Int × flash_bank × Trace :=
  if bank.target.state ≠ target_state.TARGET_HALTED then
    (ERROR_TARGET_NOT_HALTED, bank, t)
  else
    let (r1, t1) := target_write_u32 link (FMC_REG_BASE + FMC_REG_OCMR) FMC_CMD_MASS_ERASE t
    if r1 ≠ ERROR_OK then (r1, bank, t1) else
    let (r2, t2) := target_write_u32 link (FMC_REG_BASE + FMC_REG_OPCR) FMC_COMMIT t1
    if r2 ≠ ERROR_OK then (r2, bank, t2) else
    let (r3, t3) := ht32f523xx_wait_status_busy link FLASH_ERASE_TIMEOUT t2
    if r3 ≠ ERROR_OK then (r3, bank, t3) else
    (ERROR_OK, bank, t3)

/-- The command handler `mass_erase`.  `argc` is `CMD_ARGC`; `get_bank` is the return code of
`flash_command_get_bank` and `bank` the bank it resolves (both outside the driver).  The loop
over `num_sectors` entries stores into the first `num_sectors` entries of the array. -/
def ht32f523xx_handle_mass_erase_command (link : Link) (argc : Nat) (get_bank : Int)
    (bank : flash_bank) (t : Trace) : Option (Int × flash_bank × Trace) :=
  if argc < 6 then some (ERROR_COMMAND_SYNTAX_ERROR, bank, t)
  else if get_bank ≠ ERROR_OK then some (get_bank, bank, t)
  else
    let (retval, bank1, t1) := ht32f523xx_mass_erase link bank t
    if retval = ERROR_OK then
      if bank1.num_sectors ≤ bank1.sectors.length then
        some (ERROR_OK,
          { bank1 with sectors :=
              (bank1.sectors.take bank1.num_sectors).map (fun x => { x with is_erased := 1 })
                ++ bank1.sectors.drop bank1.num_sectors }, t1)
      else none
    else some (ERROR_OK, bank1, t1)

/-- The buffer that `ht32f523xx_handle_test_write` fills: `buffer[i] = i` for `i < 32`. -/
def test_write_buffer : List uint8_t :=
  (List.range 32).map fun i => Fin.ofNat i

/-- The command handler `test_write`; `argc`, `get_bank` and `bank` as for `mass_erase`. -/
def ht32f523xx_handle_test_write (link : Link) (argc : Nat) (get_bank : Int)
    (bank : flash_bank) (t : Trace) : Option (Int × flash_bank × Trace) :=
  if argc < 6 then some (ERROR_COMMAND_SYNTAX_ERROR, bank, t)
  else if get_bank ≠ ERROR_OK then some (get_bank, bank, t)
  else
    match ht32f523xx_erase link bank 0 0 t with
    | none => none
    | some (retval, bank1, t1) =>
      if retval ≠ ERROR_OK then some (retval, bank1, t1)
      else ht32f523xx_write link bank1 test_write_buffer 0 32 t1

/-! ## The word-program transaction of the specification -/

/-- The `k`-th word-program transaction as the specification describes it, for a write of
`buffer` at `offset`: address register, data register with the little-endian word of bytes
`4k .. 4k+3`, command register, control register, then one status read.  The address is a
32-bit register value. -/
def spec_word_program (buffer : List uint8_t) (offset k : Nat) : Trace :=
  [Event.write 0x40080000 ((offset + 4 * k) % 2 ^ 32),
   Event.write 0x40080004
     ((buffer.getD (4 * k) 0).val + 2 ^ 8 * (buffer.getD (4 * k + 1) 0).val
       + 2 ^ 16 * (buffer.getD (4 * k + 2) 0).val + 2 ^ 24 * (buffer.getD (4 * k + 3) 0).val),
   Event.write 0x4008000C 0x4,
   Event.write 0x40080010 0x14,
   Event.read 0x40080010]

/-- The page-erase transaction as the specification describes it: address register, command
register, control register, then one status read. -/
def spec_page_erase (offset : Nat) : Trace :=
  [Event.write 0x40080000 offset,
   Event.write 0x4008000C 0x8,
   Event.write 0x40080010 0x14,
   Event.read 0x40080010]

/-- The accesses of the self-test that the claim about it lists: the eight word-program
transactions at addresses 0, 4, ..., 28 with the little-endian words of the pattern
0, 1, ..., 31. -/
def spec_test_write_programs : Trace :=
  [Event.write 0x40080000 0, Event.write 0x40080004 0x03020100,
   Event.write 0x4008000C 0x4, Event.write 0x40080010 0x14, Event.read 0x40080010,
   Event.write 0x40080000 4, Event.write 0x40080004 0x07060504,
   Event.write 0x4008000C 0x4, Event.write 0x40080010 0x14, Event.read 0x40080010,
   Event.write 0x40080000 8, Event.write 0x40080004 0x0B0A0908,
   Event.write 0x4008000C 0x4, Event.write 0x40080010 0x14, Event.read 0x40080010,
   Event.write 0x40080000 12, Event.write 0x40080004 0x0F0E0D0C,
   Event.write 0x4008000C 0x4, Event.write 0x40080010 0x14, Event.read 0x40080010,
   Event.write 0x40080000 16, Event.write 0x40080004 0x13121110,
   Event.write 0x4008000C 0x4, Event.write 0x40080010 0x14, Event.read 0x40080010,
   Event.write 0x40080000 20, Event.write 0x40080004 0x17161514,
   Event.write 0x4008000C 0x4, Event.write 0x40080010 0x14, Event.read 0x40080010,
   Event.write 0x40080000 24, Event.write 0x40080004 0x1B1A1918,
   Event.write 0x4008000C 0x4, Event.write 0x40080010 0x14, Event.read 0x40080010,
   Event.write 0x40080000 28, Event.write 0x40080004 0x1F1E1D1C,
   Event.write 0x4008000C 0x4, Event.write 0x40080010 0x14, Event.read 0x40080010]

/-! ## Counting accesses -/

def Event.is_read : Event → Bool
  | Event.read _ => true
  | _ => false

def Event.is_write : Event → Bool
  | Event.write _ _ => true
  | _ => false

def Event.is_sleep : Event → Bool
  | Event.sleep _ => true
  | _ => false

/-- Number of register reads in a trace. -/
def reads (t : Trace) : Nat := t.countP Event.is_read

/-- Number of register writes in a trace. -/
def writes (t : Trace) : Nat := t.countP Event.is_write

/-- Number of sleeps in a trace. -/
def sleeps (t : Trace) : Nat := t.countP Event.is_sleep

/-! ## Sequences of calls and the geometry of the sector map -/

/-- One call of a bank operation of the driver, with its arguments. -/
inductive flash_op where
  | erase (first last : Nat)
  | write (buffer : List uint8_t) (offset count : Nat)
  | mass_erase
  | mass_erase_command (argc : Nat) (get_bank : Int)
  | protect_check

/-- The call of one operation on a bank. -/
def run_op (link : Link) : flash_op → flash_bank → Trace → Option (Int × flash_bank × Trace)
  | flash_op.erase first last, bank, t => ht32f523xx_erase link bank first last t
  | flash_op.write buffer offset count, bank, t =>
    ht32f523xx_write link bank buffer offset count t
  | flash_op.mass_erase, bank, t => some (ht32f523xx_mass_erase link bank t)
  | flash_op.mass_erase_command argc get_bank, bank, t =>
    ht32f523xx_handle_mass_erase_command link argc get_bank bank t
  | flash_op.protect_check, bank, t => ht32f523xx_protect_check link bank t

/-- A sequence of calls, each on the bank the previous call left, whatever it returned. -/
def run_ops (link : Link) : List flash_op → flash_bank → Trace → Option (flash_bank × Trace)
  | [], bank, t => some (bank, t)
  | op :: ops, bank, t =>
    match run_op link op bank t with
    | none => none
    | some (_, bank1, t1) => run_ops link ops bank1 t1

/-- The offsets and sizes of a sector array, in order. -/
def sector_geometry (sectors : List flash_sector) : List (Nat × Nat) :=
  sectors.map fun s => (s.offset, s.size)

/-! ## The first failing access of a trace -/

/-- The return code that the link gives to the access `e` after the accesses `hist`; a
sleep is not a link access and cannot fail. -/
def link_code (link : Link) (hist : Trace) : Event → Int
  | Event.write a v => link.write_u32 hist a v
  | Event.read a => (link.read_u32 hist a).1
  | Event.sleep _ => ERROR_OK

/-- The first access among `evs`, made after the accesses `hist`, to which the link returns
an error: its return code and the accesses that follow it. -/
def first_failure (link : Link) : Trace → Trace → Option (Int × Trace)
  | _, [] => none
  | hist, e :: rest =>
    if link_code link hist e ≠ ERROR_OK then some (link_code link hist e, rest)
    else first_failure link (hist ++ [e]) rest

/-- An operation that started after the accesses `t`, returned `r` and left the trace `t1`
stopped at the first failing access: `t1` extends `t`, and among the accesses made either
none failed on the link, or the operation failed with the return code of the first one that
did, and that access is the last one made. -/
def stops_at_first_failure (link : Link) (t : Trace) (r : Int) (t1 : Trace) : Prop :=
  ∃ evs, t1 = t ++ evs ∧
    (first_failure link t evs = none ∨
      (r ≠ ERROR_OK ∧ first_failure link t evs = some (r, [])))

/-- The offset of sector `j` of a sector array (0 outside the array). -/
def sector_offset (sectors : List flash_sector) (j : Nat) : Nat :=
  match sectors[j]? with
  | some s => s.offset
  | none => 0

/-! ## Concrete links and banks used to instantiate the theorems -/

/-- A link on which every write succeeds and every read succeeds with the value `v`. -/
def const_link (v : Nat) : Link :=
  { write_u32 := fun _ _ _ => ERROR_OK, read_u32 := fun _ _ => (ERROR_OK, v) }

/-- A bank of `size` bytes that has not been probed yet. -/
def blank_bank (st : target_state) (size : Nat) : flash_bank :=
  { target := ⟨st⟩, base := 0, size := size, num_sectors := 0, sectors := [] }

/-- A probed bank of 2048 bytes (four sectors) on a halted target. -/
def demo_bank : flash_bank :=
  (ht32f523xx_probe (blank_bank target_state.TARGET_HALTED 2048)).2

/-- The bank `demo_bank` after sectors 1 and 2 were erased. -/
def demo_bank_erased : flash_bank :=
  { demo_bank with
    sectors := [⟨0, 512, -1, 1⟩, ⟨512, 512, 1, 1⟩, ⟨1024, 512, 1, 1⟩, ⟨1536, 512, -1, 1⟩] }

/-- The accesses of an erase of sectors 1 and 2 of `demo_bank` on a link that is ready. -/
def demo_erase_trace : Trace :=
  [Event.write 0x40080000 512, Event.write 0x4008000C 8, Event.write 0x40080010 0x14,
   Event.read 0x40080010,
   Event.write 0x40080000 1024, Event.write 0x4008000C 8, Event.write 0x40080010 0x14,
   Event.read 0x40080010]

/-- A probed bank of 131072 bytes (256 sectors) on a halted target. -/
def bank256 : flash_bank :=
  (ht32f523xx_probe (blank_bank target_state.TARGET_HALTED 131072)).2

/-- The bank `bank256` after sectors 1 and 2 were erased. -/
def bank256_erased : flash_bank :=
  { bank256 with
    sectors := (bank256.sectors.set 1 ⟨512, 512, 1, 1⟩).set 2 ⟨1024, 512, 1, 1⟩ }

/-- A link on which every write succeeds and a read succeeds, with the finished code, only
while fewer than `k` accesses were made; later reads fail with `ERROR_FAIL`. -/
def flaky_link (k : Nat) : Link :=
  { write_u32 := fun _ _ _ => ERROR_OK,
    read_u32 := fun hist _ => (if hist.length < k then ERROR_OK else ERROR_FAIL, 0x1C) }

/-- The bank `demo_bank` after sector 1 alone was erased. -/
def demo_bank_one_erased : flash_bank :=
  { demo_bank with
    sectors := [⟨0, 512, -1, 1⟩, ⟨512, 512, 1, 1⟩, ⟨1024, 512, -1, 1⟩, ⟨1536, 512, -1, 1⟩] }

/-- The accesses of the calls erase of sectors 1 and 2, write of the test pattern at offset
0, mass erase and protection check, in this order, on a link that is ready. -/
def demo_ops_trace : Trace :=
  demo_erase_trace ++ spec_test_write_programs ++
    [Event.write 0x4008000C 0xA, Event.write 0x40080010 0x14, Event.read 0x40080010,
     Event.read 0x1FF00000, Event.read 0x1FF00004, Event.read 0x1FF00008,
     Event.read 0x1FF0000C, Event.read 0x1FF00010]

/-- A link on which every write succeeds and every read fails with `ERROR_FAIL`, leaving 0
in the destination. -/
def dead_link : Link :=
  { write_u32 := fun _ _ _ => ERROR_OK, read_u32 := fun _ _ => (ERROR_FAIL, 0) }

/-- A link on which every access succeeds and the read of the option-byte word at
`OPTION_BYTE_BASE + 4 * i` gives `ws[i]` (0 outside the list). -/
def words_link (ws : List Nat) : Link :=
  { write_u32 := fun _ _ _ => ERROR_OK,
    read_u32 := fun _ a => (ERROR_OK, ws.getD ((a - OPTION_BYTE_BASE) / 4) 0) }

/-! ## Auxiliary facts -/

theorem error_fail_ne_ok : ERROR_FAIL ≠ ERROR_OK := by decide

theorem sector_store_eq_some {sectors sectors1 : List flash_sector} {i : Nat}
    {f : flash_sector → flash_sector} (h : sector_store sectors i f = some sectors1) :
    ∃ s, sectors[i]? = some s ∧ sectors1 = sectors.set i (f s) := by
  unfold sector_store at h
  split at h
  · cases h
  · next s hs => exact ⟨s, hs, by injection h with h; exact h.symm⟩

/-- One round of the erase loop that ends in success: sector `i` exists, and the rest of the
loop ran on the bank with sector `i` marked erased. -/
theorem erase_loop_succ_ok {link : Link} {n i : Nat} {bank bank1 : flash_bank} {t t1 : Trace}
    (h : erase_loop link (n + 1) i bank t = some (ERROR_OK, bank1, t1)) :
    ∃ s t4, bank.sectors[i]? = some s ∧
      erase_loop link n (i + 1)
        { bank with sectors := bank.sectors.set i { s with is_erased := 1 } } t4
        = some (ERROR_OK, bank1, t1) := by
  rw [erase_loop] at h
  split at h
  · cases h
  · next s hs =>
    simp only [] at h
    split_ifs at h with h1 h2 h3 h4
    · simp at h; exact absurd h.1 h1
    · simp at h; exact absurd h.1 h2
    · simp at h; exact absurd h.1 h3
    · simp at h; exact absurd h.1 h4
    · split at h
      · cases h
      · next sectors hst =>
        obtain ⟨s1, hs1, rfl⟩ := sector_store_eq_some hst
        rw [hs] at hs1
        cases hs1
        exact ⟨s, _, hs, h⟩

/-- Effect on the sector array of an erase loop that ends in success. -/
theorem erase_loop_ok_sectors (link : Link) :
    ∀ (n i : Nat) (bank bank1 : flash_bank) (t t1 : Trace),
      erase_loop link n i bank t = some (ERROR_OK, bank1, t1) →
      bank1.sectors.length = bank.sectors.length ∧
      (∀ j, i ≤ j → j < i + n →
        ∃ s, bank.sectors[j]? = some s ∧ bank1.sectors[j]? = some { s with is_erased := 1 }) ∧
      (∀ j, (j < i ∨ i + n ≤ j) → bank1.sectors[j]? = bank.sectors[j]?) := by
  intro n
  induction n with
  | zero =>
    intro i bank bank1 t t1 h
    simp only [erase_loop, Option.some.injEq, Prod.mk.injEq, true_and] at h
    obtain ⟨rfl, -⟩ := h
    refine ⟨rfl, ?_, fun _ _ => rfl⟩
    intro j h1 h2
    omega
  | succ n ih =>
    intro i bank bank1 t t1 h
    obtain ⟨s, t4, hs, hrec⟩ := erase_loop_succ_ok h
    have hi : i < bank.sectors.length := (List.getElem?_eq_some.mp hs).1
    obtain ⟨hlen, hin, hout⟩ := ih (i + 1) _ bank1 t4 t1 hrec
    simp only [List.length_set] at hlen
    refine ⟨hlen, ?_, ?_⟩
    · intro j h1 h2
      by_cases hji : j = i
      · subst hji
        refine ⟨s, hs, ?_⟩
        rw [hout j (Or.inl (Nat.lt_succ_self j))]
        simp [hi]
      · obtain ⟨s1, hs1, hb1⟩ := hin j (by omega) (by omega)
        rw [List.getElem?_set_ne (Ne.symm hji)] at hs1
        exact ⟨s1, hs1, hb1⟩
    · intro j hj
      rw [hout j (by omega)]
      exact List.getElem?_set_ne (by omega)

/-- The alignment test `x & 0x03` of the driver is the test of `x` modulo 4. -/
theorem and_three_eq_mod (x : Nat) : x &&& 0x03 = x % 4 :=
  Nat.and_pow_two_sub_one_eq_mod x 2

/-! ## The status poll -/

/-- One round of the poll loop, with the link access written out. -/
theorem wait_status_busy_loop_eq (link : Link) (n : Nat) (t : Trace) :
    wait_status_busy_loop link n t =
      if (ht32f523xx_get_flash_status link t).1 ≠ ERROR_OK then
        ((ht32f523xx_get_flash_status link t).1, t ++ [Event.read 0x40080010])
      else if ((ht32f523xx_get_flash_status link t).2.1 &&& 0x1E) = 0x1C ∨
          ((ht32f523xx_get_flash_status link t).2.1 &&& 0x1E) = 0x0C then
        (ERROR_OK, t ++ [Event.read 0x40080010])
      else
        match n with
        | 0 => (ERROR_FAIL, t ++ [Event.read 0x40080010])
        | m + 1 =>
          wait_status_busy_loop link m (t ++ [Event.read 0x40080010, Event.sleep 10]) := by
  rw [wait_status_busy_loop]
  cases n <;>
    simp [ht32f523xx_get_flash_status, target_read_u32, alive_sleep,
      FMC_REG_BASE, FMC_REG_OPCR, FMC_OPM_MASK, FMC_FINISHED, FMC_START]

/-- Every poll makes at least one access. -/
theorem wait_status_busy_loop_length (link : Link) :
    ∀ (n : Nat) (t : Trace), t.length + 1 ≤ (wait_status_busy_loop link n t).2.length := by
  intro n
  induction n with
  | zero =>
    intro t
    rw [wait_status_busy_loop_eq]
    split_ifs <;> simp
  | succ n ih =>
    intro t
    rw [wait_status_busy_loop_eq]
    split_ifs
    · simp
    · simp
    · have := ih (t ++ [Event.read 0x40080010, Event.sleep 10])
      simp only [List.length_append, List.length_cons, List.length_nil] at this
      simp only
      omega

/-- The non-negative part of an `int` counter given as a natural number is that number. -/
theorem wait_status_busy_nat (link : Link) (N : Nat) (t : Trace) :
    ht32f523xx_wait_status_busy link (N : Int) t = wait_status_busy_loop link N t := by
  simp [ht32f523xx_wait_status_busy]

/-- The accesses of `N` retries: a sleep of 10 and a status read, `N` times. -/
theorem retries_counts (N : Nat) :
    reads (List.replicate N [Event.sleep 10, Event.read 0x40080010]).flatten = N ∧
    sleeps (List.replicate N [Event.sleep 10, Event.read 0x40080010]).flatten = N ∧
    writes (List.replicate N [Event.sleep 10, Event.read 0x40080010]).flatten = 0 := by
  induction N with
  | zero => simp [reads, sleeps, writes]
  | succ n ih =>
    obtain ⟨h1, h2, h3⟩ := ih
    simp only [reads, sleeps, writes] at h1 h2 h3 ⊢
    simp only [List.replicate_succ, List.flatten_cons, List.countP_append, h1, h2, h3]
    simp [List.countP_cons, Event.is_read, Event.is_sleep, Event.is_write]
    omega

/-- A poll against a link that never reports ready: one read, then `n` retries. -/
theorem wait_status_busy_loop_never_ready (link : Link)
    (hbusy : ∀ t, (ht32f523xx_get_flash_status link t).1 = ERROR_OK ∧
      ¬ (((ht32f523xx_get_flash_status link t).2.1 &&& 0x1E) = 0x1C ∨
         ((ht32f523xx_get_flash_status link t).2.1 &&& 0x1E) = 0x0C)) :
    ∀ (n : Nat) (t : Trace),
      wait_status_busy_loop link n t =
        (ERROR_FAIL, t ++ Event.read 0x40080010 ::
          (List.replicate n [Event.sleep 10, Event.read 0x40080010]).flatten) := by
  intro n
  induction n with
  | zero =>
    intro t
    rw [wait_status_busy_loop_eq, if_neg (not_not.mpr (hbusy t).1), if_neg (hbusy t).2]
    simp
  | succ n ih =>
    intro t
    rw [wait_status_busy_loop_eq, if_neg (not_not.mpr (hbusy t).1), if_neg (hbusy t).2]
    simp only
    rw [ih]
    simp [List.replicate_succ]

/-- A poll with `n` retries allowed makes at most `n + 1` reads, whatever the link does. -/
theorem wait_status_busy_loop_reads (link : Link) :
    ∀ (n : Nat) (t : Trace), reads (wait_status_busy_loop link n t).2 ≤ reads t + (n + 1) := by
  intro n
  induction n with
  | zero =>
    intro t
    rw [wait_status_busy_loop_eq]
    split_ifs <;> simp [reads, Event.is_read, List.countP_cons]
  | succ n ih =>
    intro t
    rw [wait_status_busy_loop_eq]
    split_ifs
    · simp [reads, Event.is_read, List.countP_cons]
    · simp [reads, Event.is_read, List.countP_cons]
    · have := ih (t ++ [Event.read 0x40080010, Event.sleep 10])
      simp only [reads, List.countP_append, List.countP_cons, List.countP_nil, Event.is_read,
        if_true, Bool.false_eq_true, if_false] at this ⊢
      omega

/-- C4: for every timeout value, when the first status read succeeds with a value `s`
such that `s & 0x1E` is the finished code `0x1C` or the start code `0x0C`,
`ht32f523xx_wait_status_busy` returns success and its only access is that one status read (no
sleep).  When the value read has any other masked field, the poll does not return success on
that read: it returns the failure `ERROR_FAIL` on it when `timeout ≤ 0`, and otherwise sleeps
10 and polls again with the counter one lower. -/
theorem wait_status_first_read (link : Link) (timeout : Int) (t : Trace)
    (hread : (ht32f523xx_get_flash_status link t).1 = ERROR_OK) :
    ((((ht32f523xx_get_flash_status link t).2.1 &&& 0x1E) = 0x1C ∨
      ((ht32f523xx_get_flash_status link t).2.1 &&& 0x1E) = 0x0C) →
        ht32f523xx_wait_status_busy link timeout t = (ERROR_OK, t ++ [Event.read 0x40080010])) ∧
    (¬ (((ht32f523xx_get_flash_status link t).2.1 &&& 0x1E) = 0x1C ∨
        ((ht32f523xx_get_flash_status link t).2.1 &&& 0x1E) = 0x0C) →
        ht32f523xx_wait_status_busy link timeout t ≠ (ERROR_OK, t ++ [Event.read 0x40080010]) ∧
        (timeout ≤ 0 →
          ht32f523xx_wait_status_busy link timeout t
            = (ERROR_FAIL, t ++ [Event.read 0x40080010])) ∧
        (0 < timeout →
          ht32f523xx_wait_status_busy link timeout t
            = ht32f523xx_wait_status_busy link (timeout - 1)
                (t ++ [Event.read 0x40080010, Event.sleep 10]))) := by
  refine ⟨fun hready => ?_, fun hbusy => ?_⟩
  · unfold ht32f523xx_wait_status_busy
    rw [wait_status_busy_loop_eq, if_neg (not_not.mpr hread), if_pos hready]
  · have hle : timeout ≤ 0 →
        ht32f523xx_wait_status_busy link timeout t
          = (ERROR_FAIL, t ++ [Event.read 0x40080010]) := by
      intro h0
      unfold ht32f523xx_wait_status_busy
      rw [wait_status_busy_loop_eq, if_neg (not_not.mpr hread), if_neg hbusy,
        Int.toNat_eq_zero.mpr h0]
    have hlt : 0 < timeout →
        ht32f523xx_wait_status_busy link timeout t
          = ht32f523xx_wait_status_busy link (timeout - 1)
              (t ++ [Event.read 0x40080010, Event.sleep 10]) := by
      intro h0
      unfold ht32f523xx_wait_status_busy
      have hn : timeout.toNat = (timeout - 1).toNat + 1 := by omega
      rw [wait_status_busy_loop_eq, if_neg (not_not.mpr hread), if_neg hbusy, hn]
    refine ⟨?_, hle, hlt⟩
    rcases le_or_lt timeout 0 with h0 | h0
    · rw [hle h0]
      intro h
      exact error_fail_ne_ok (congrArg Prod.fst h)
    · rw [hlt h0]
      intro h
      have hlen := wait_status_busy_loop_length link (timeout - 1).toNat
        (t ++ [Event.read 0x40080010, Event.sleep 10])
      unfold ht32f523xx_wait_status_busy at h
      rw [h] at hlen
      simp at hlen

/-- Instance of C4: a first read of the finished code with timeout 1000, a first read of the
start code with a negative timeout, and a first read of the commit code `0x14`. -/
theorem wait_status_first_read_witness :
    ht32f523xx_wait_status_busy (const_link 0x1C) 1000 [] = (ERROR_OK, [Event.read 0x40080010]) ∧
    ht32f523xx_wait_status_busy (const_link 0x0C) (-5) [] = (ERROR_OK, [Event.read 0x40080010]) ∧
    ht32f523xx_wait_status_busy (const_link 0x14) 7 [] ≠ (ERROR_OK, [Event.read 0x40080010]) :=
  ⟨(wait_status_first_read (const_link 0x1C) 1000 [] (by decide)).1 (by decide),
   (wait_status_first_read (const_link 0x0C) (-5) [] (by decide)).1 (by decide),
   ((wait_status_first_read (const_link 0x14) 7 [] (by decide)).2 (by decide)).1⟩

/-- C5: for every retry count `N ≥ 0`, when every status read succeeds with a value whose
masked field is neither finished nor start, `ht32f523xx_wait_status_busy` with timeout `N`
returns the timeout failure `ERROR_FAIL`, which is not success, after one status read
followed by exactly `N` retries, each a sleep of 10 and then a status read: `N + 1` reads and
`N` sleeps in all, and no write. -/
theorem wait_status_timeout (link : Link) (N : Nat) (t : Trace)
    (hbusy : ∀ t1, (ht32f523xx_get_flash_status link t1).1 = ERROR_OK ∧
      ¬ (((ht32f523xx_get_flash_status link t1).2.1 &&& 0x1E) = 0x1C ∨
         ((ht32f523xx_get_flash_status link t1).2.1 &&& 0x1E) = 0x0C)) :
    ht32f523xx_wait_status_busy link (N : Int) t =
      (ERROR_FAIL, t ++ Event.read 0x40080010 ::
        (List.replicate N [Event.sleep 10, Event.read 0x40080010]).flatten) ∧
    ERROR_FAIL ≠ ERROR_OK ∧
    reads (ht32f523xx_wait_status_busy link (N : Int) t).2 = reads t + (N + 1) ∧
    sleeps (ht32f523xx_wait_status_busy link (N : Int) t).2 = sleeps t + N ∧
    writes (ht32f523xx_wait_status_busy link (N : Int) t).2 = writes t := by
  have h := wait_status_busy_loop_never_ready link hbusy N t
  obtain ⟨h1, h2, h3⟩ := retries_counts N
  rw [wait_status_busy_nat, h]
  refine ⟨rfl, error_fail_ne_ok, ?_, ?_, ?_⟩
  · simp only [reads] at h1 ⊢
    simp only [List.countP_append, List.countP_cons, h1, Event.is_read, if_true]
  · simp only [sleeps] at h2 ⊢
    simp only [List.countP_append, List.countP_cons, h2, Event.is_sleep, Bool.false_eq_true,
      if_false]
    omega
  · simp only [writes] at h3 ⊢
    simp [List.countP_append, List.countP_cons, h3, Event.is_write]

/-- Instance of C5: three retries against a link that always reports the commit code. -/
theorem wait_status_timeout_witness :
    ht32f523xx_wait_status_busy (const_link 0x14) ((3 : Nat) : Int) [] =
      (ERROR_FAIL, [] ++ Event.read 0x40080010 ::
        (List.replicate 3 [Event.sleep 10, Event.read 0x40080010]).flatten) ∧
    ERROR_FAIL ≠ ERROR_OK ∧
    reads (ht32f523xx_wait_status_busy (const_link 0x14) ((3 : Nat) : Int) []).2 = reads [] + (3 + 1) ∧
    sleeps (ht32f523xx_wait_status_busy (const_link 0x14) ((3 : Nat) : Int) []).2 = sleeps [] + 3 ∧
    writes (ht32f523xx_wait_status_busy (const_link 0x14) ((3 : Nat) : Int) []).2 = writes [] :=
  wait_status_timeout (const_link 0x14) 3 []
    (fun _ => ⟨rfl, show ¬ (((0x14 % 2 ^ 32) &&& 0x1E) = 0x1C ∨ ((0x14 % 2 ^ 32) &&& 0x1E) = 0x0C)
      by decide⟩)

/-! ## Erase -/

/-- One round of the erase loop on an existing sector, with the link accesses written out. -/
theorem erase_loop_succ_eq (link : Link) (n i : Nat) (bank : flash_bank) (t : Trace)
    (s : flash_sector) (hs : bank.sectors[i]? = some s) :
    erase_loop link (n + 1) i bank t =
      if link.write_u32 t 0x40080000 s.offset ≠ ERROR_OK then
        some (link.write_u32 t 0x40080000 s.offset, bank,
          t ++ [Event.write 0x40080000 s.offset])
      else if link.write_u32 (t ++ [Event.write 0x40080000 s.offset]) 0x4008000C 0x8
          ≠ ERROR_OK then
        some (link.write_u32 (t ++ [Event.write 0x40080000 s.offset]) 0x4008000C 0x8, bank,
          t ++ [Event.write 0x40080000 s.offset, Event.write 0x4008000C 0x8])
      else if link.write_u32
          (t ++ [Event.write 0x40080000 s.offset, Event.write 0x4008000C 0x8]) 0x40080010 0x14
          ≠ ERROR_OK then
        some (link.write_u32
            (t ++ [Event.write 0x40080000 s.offset, Event.write 0x4008000C 0x8]) 0x40080010 0x14,
          bank,
          t ++ [Event.write 0x40080000 s.offset, Event.write 0x4008000C 0x8,
                Event.write 0x40080010 0x14])
      else if (ht32f523xx_wait_status_busy link 1000
          (t ++ [Event.write 0x40080000 s.offset, Event.write 0x4008000C 0x8,
                 Event.write 0x40080010 0x14])).1 ≠ ERROR_OK then
        some ((ht32f523xx_wait_status_busy link 1000
            (t ++ [Event.write 0x40080000 s.offset, Event.write 0x4008000C 0x8,
                   Event.write 0x40080010 0x14])).1,
          bank,
          (ht32f523xx_wait_status_busy link 1000
            (t ++ [Event.write 0x40080000 s.offset, Event.write 0x4008000C 0x8,
                   Event.write 0x40080010 0x14])).2)
      else
        erase_loop link n (i + 1)
          { bank with sectors := bank.sectors.set i { s with is_erased := 1 } }
          (ht32f523xx_wait_status_busy link 1000
            (t ++ [Event.write 0x40080000 s.offset, Event.write 0x4008000C 0x8,
                   Event.write 0x40080010 0x14])).2 := by
  rw [erase_loop]
  simp [hs, sector_store, target_write_u32, FMC_REG_BASE, FMC_REG_TADR, FMC_REG_OCMR,
    FMC_REG_OPCR, FMC_CMD_PAGE_ERASE, FMC_COMMIT, FLASH_ERASE_TIMEOUT]

/-- C1: for a halted bank and a sector range with `first ≤ last < sector_count`, when
`ht32f523xx_erase` returns success every sector with index in `[first, last]` exists and has
`is_erased = 1` (its other fields being those it had before), every sector with index
outside `[first, last]` is equal, field by field, to what it was before the call, and the
array keeps its length. -/
theorem erase_success_marks_range (link : Link) (bank bank1 : flash_bank) (first last : Nat)
    (t t1 : Trace)
    (_hhalted : bank.target.state = target_state.TARGET_HALTED)
    (_hfirst : first ≤ last)
    (_hlast : last < bank.num_sectors)
    (_hcount : bank.num_sectors = bank.sectors.length)
    (h : ht32f523xx_erase link bank first last t = some (ERROR_OK, bank1, t1)) :
    bank1.sectors.length = bank.sectors.length ∧
    (∀ j, first ≤ j → j ≤ last →
      ∃ s s1, bank.sectors[j]? = some s ∧ bank1.sectors[j]? = some s1 ∧ s1.is_erased = 1 ∧
        s1.offset = s.offset ∧ s1.size = s.size ∧ s1.is_protected = s.is_protected) ∧
    (∀ j, (j < first ∨ last < j) → bank1.sectors[j]? = bank.sectors[j]?) := by
  unfold ht32f523xx_erase at h
  split_ifs at h with hh
  · simp only [Option.some.injEq, Prod.mk.injEq] at h
    exact absurd h.1 (by decide)
  · obtain ⟨hlen, hin, hout⟩ := erase_loop_ok_sectors link _ _ _ _ _ _ h
    refine ⟨hlen, ?_, ?_⟩
    · intro j h1 h2
      obtain ⟨s, hs, hs1⟩ := hin j h1 (by omega)
      exact ⟨s, _, hs, hs1, rfl, rfl, rfl, rfl⟩
    · intro j hj
      exact hout j (by omega)

/-- Instance of C1: erasing sectors 1 and 2 of a probed four-sector bank on a ready link. -/
theorem erase_success_marks_range_witness :
    demo_bank_erased.sectors.length = demo_bank.sectors.length ∧
    (∀ j, 1 ≤ j → j ≤ 2 →
      ∃ s s1, demo_bank.sectors[j]? = some s ∧ demo_bank_erased.sectors[j]? = some s1 ∧
        s1.is_erased = 1 ∧
        s1.offset = s.offset ∧ s1.size = s.size ∧ s1.is_protected = s.is_protected) ∧
    (∀ j, (j < 1 ∨ 2 < j) → demo_bank_erased.sectors[j]? = demo_bank.sectors[j]?) :=
  erase_success_marks_range (const_link 0x1C) demo_bank demo_bank_erased 1 2 [] demo_erase_trace
    (by decide) (by decide) (by decide) (by decide) (by decide)

/-- A poll with the budget of the driver makes at most 1001 reads. -/
theorem wait_status_busy_reads_budget (link : Link) (t : Trace) :
    reads (ht32f523xx_wait_status_busy link 1000 t).2 ≤ reads t + 1001 :=
  wait_status_busy_loop_reads link 1000 t

theorem reads_append_write (t : Trace) (a v : Nat) :
    reads (t ++ [Event.write a v]) = reads t := by
  simp [reads, Event.is_read, List.countP_cons]

theorem reads_append_write2 (t : Trace) (a v a1 v1 : Nat) :
    reads (t ++ [Event.write a v, Event.write a1 v1]) = reads t := by
  simp [reads, Event.is_read, List.countP_cons]

theorem reads_append_write3 (t : Trace) (a v a1 v1 a2 v2 : Nat) :
    reads (t ++ [Event.write a v, Event.write a1 v1, Event.write a2 v2]) = reads t := by
  simp [reads, Event.is_read, List.countP_cons]

theorem reads_append_write4 (t : Trace) (a v a1 v1 a2 v2 a3 v3 : Nat) :
    reads (t ++ [Event.write a v, Event.write a1 v1, Event.write a2 v2, Event.write a3 v3])
      = reads t := by
  simp [reads, Event.is_read, List.countP_cons]

/-- On a range inside the sector array the erase loop returns a result, after at most 1001
status reads per sector. -/
theorem erase_loop_reads (link : Link) :
    ∀ (n i : Nat) (bank : flash_bank) (t : Trace), i + n ≤ bank.sectors.length →
      ∃ r bank1 t1, erase_loop link n i bank t = some (r, bank1, t1) ∧
        reads t1 ≤ reads t + 1001 * n := by
  intro n
  induction n with
  | zero =>
    intro i bank t _
    exact ⟨ERROR_OK, bank, t, rfl, by omega⟩
  | succ n ih =>
    intro i bank t hlen
    have hi : i < bank.sectors.length := by omega
    have hs : bank.sectors[i]? = some bank.sectors[i] := List.getElem?_eq_getElem hi
    rw [erase_loop_succ_eq link n i bank t _ hs]
    have hw := wait_status_busy_reads_budget link
      (t ++ [Event.write 0x40080000 bank.sectors[i].offset, Event.write 0x4008000C 0x8,
             Event.write 0x40080010 0x14])
    rw [reads_append_write3] at hw
    split_ifs
    · exact ⟨_, _, _, rfl, by rw [reads_append_write]; omega⟩
    · exact ⟨_, _, _, rfl, by rw [reads_append_write2]; omega⟩
    · exact ⟨_, _, _, rfl, by rw [reads_append_write3]; omega⟩
    · exact ⟨_, _, _, rfl, by omega⟩
    · obtain ⟨r, bank1, t1, h, hb⟩ := ih (i + 1)
        { bank with sectors := bank.sectors.set i { bank.sectors[i] with is_erased := 1 } }
        (ht32f523xx_wait_status_busy link 1000
          (t ++ [Event.write 0x40080000 bank.sectors[i].offset, Event.write 0x4008000C 0x8,
                 Event.write 0x40080010 0x14])).2
        (by simp only [List.length_set]; omega)
      exact ⟨r, bank1, t1, h, by omega⟩

/-! ## Write -/

/-- C2: on a halted bank, for every buffer and every link, `ht32f523xx_write` returns the
alignment error when `offset` is not a multiple of 4 and when `count` is not a multiple of 4;
the trace it returns is the trace it was given, so no register write, no register read (and
no sleep) was issued, and the bank is the bank it was given. -/
theorem write_misaligned_rejected (link : Link) (bank : flash_bank) (buffer : List uint8_t)
    (offset count : Nat) (t : Trace)
    (hhalted : bank.target.state = target_state.TARGET_HALTED)
    (hmis : offset % 4 ≠ 0 ∨ count % 4 ≠ 0) :
    ht32f523xx_write link bank buffer offset count t
      = some (ERROR_FLASH_DST_BREAKS_ALIGNMENT, bank, t) := by
  unfold ht32f523xx_write
  rw [if_neg (not_not.mpr hhalted)]
  simp only [and_three_eq_mod]
  by_cases ho : offset % 4 = 0
  · have hc : count % 4 ≠ 0 := hmis.resolve_left (not_not.mpr ho)
    rw [if_neg (not_not.mpr ho), if_pos hc]
  · rw [if_pos ho]

/-- Instance of C2: a write at offset 2, and a write of 6 bytes at offset 0. -/
theorem write_misaligned_rejected_witness :
    ht32f523xx_write (const_link 0x1C) demo_bank test_write_buffer 2 32 []
      = some (ERROR_FLASH_DST_BREAKS_ALIGNMENT, demo_bank, []) ∧
    ht32f523xx_write (const_link 0x1C) demo_bank test_write_buffer 0 6 []
      = some (ERROR_FLASH_DST_BREAKS_ALIGNMENT, demo_bank, []) :=
  ⟨write_misaligned_rejected (const_link 0x1C) demo_bank test_write_buffer 2 32 []
      (by decide) (by decide),
   write_misaligned_rejected (const_link 0x1C) demo_bank test_write_buffer 0 6 []
      (by decide) (by decide)⟩


/-- The word that the write loop assembles with shifts and ors is the little-endian value of
the four bytes. -/
theorem word_eq_little_endian (b0 b1 b2 b3 : uint8_t) :
    ((b0.val <<< 0) ||| (b1.val <<< 8) ||| (b2.val <<< 16) ||| (b3.val <<< 24)) % 2 ^ 32
      = b0.val + 2 ^ 8 * b1.val + 2 ^ 16 * b2.val + 2 ^ 24 * b3.val := by
  have h0 := b0.isLt
  have h1 := b1.isLt
  have h2 := b2.isLt
  have h3 := b3.isLt
  have e1 : (b0.val <<< 0) ||| (b1.val <<< 8) = 2 ^ 8 * b1.val + b0.val := by
    rw [Nat.shiftLeft_zero, Nat.shiftLeft_eq, Nat.mul_comm b1.val, Nat.lor_comm]
    exact (Nat.mul_add_lt_is_or (by omega) _).symm
  have e2 : (2 ^ 8 * b1.val + b0.val) ||| (b2.val <<< 16)
      = 2 ^ 16 * b2.val + (2 ^ 8 * b1.val + b0.val) := by
    rw [Nat.shiftLeft_eq, Nat.mul_comm b2.val, Nat.lor_comm]
    exact (Nat.mul_add_lt_is_or (by omega) _).symm
  have e3 : (2 ^ 16 * b2.val + (2 ^ 8 * b1.val + b0.val)) ||| (b3.val <<< 24)
      = 2 ^ 24 * b3.val + (2 ^ 16 * b2.val + (2 ^ 8 * b1.val + b0.val)) := by
    rw [Nat.shiftLeft_eq, Nat.mul_comm b3.val, Nat.lor_comm]
    exact (Nat.mul_add_lt_is_or (by omega) _).symm
  rw [e1, e2, e3]
  omega

/-- One round of the write loop on four existing bytes, with the link accesses written out. -/
theorem write_loop_succ_eq (link : Link) (buffer : List uint8_t) (n i addr : Nat) (t : Trace)
    (b0 b1 b2 b3 : uint8_t) (h0 : buffer[i]? = some b0) (h1 : buffer[i + 1]? = some b1)
    (h2 : buffer[i + 2]? = some b2) (h3 : buffer[i + 3]? = some b3) :
    write_loop link buffer (n + 1) i addr t =
      if link.write_u32 t 0x40080000 addr ≠ ERROR_OK then
        some (link.write_u32 t 0x40080000 addr, t ++ [Event.write 0x40080000 addr])
      else if link.write_u32 (t ++ [Event.write 0x40080000 addr]) 0x40080004
          (b0.val + 2 ^ 8 * b1.val + 2 ^ 16 * b2.val + 2 ^ 24 * b3.val) ≠ ERROR_OK then
        some (link.write_u32 (t ++ [Event.write 0x40080000 addr]) 0x40080004
            (b0.val + 2 ^ 8 * b1.val + 2 ^ 16 * b2.val + 2 ^ 24 * b3.val),
          t ++ [Event.write 0x40080000 addr,
                Event.write 0x40080004
                  (b0.val + 2 ^ 8 * b1.val + 2 ^ 16 * b2.val + 2 ^ 24 * b3.val)])
      else if link.write_u32
          (t ++ [Event.write 0x40080000 addr,
                 Event.write 0x40080004
                   (b0.val + 2 ^ 8 * b1.val + 2 ^ 16 * b2.val + 2 ^ 24 * b3.val)])
          0x4008000C 0x4 ≠ ERROR_OK then
        some (link.write_u32
            (t ++ [Event.write 0x40080000 addr,
                   Event.write 0x40080004
                     (b0.val + 2 ^ 8 * b1.val + 2 ^ 16 * b2.val + 2 ^ 24 * b3.val)])
            0x4008000C 0x4,
          t ++ [Event.write 0x40080000 addr,
                Event.write 0x40080004
                  (b0.val + 2 ^ 8 * b1.val + 2 ^ 16 * b2.val + 2 ^ 24 * b3.val),
                Event.write 0x4008000C 0x4])
      else if link.write_u32
          (t ++ [Event.write 0x40080000 addr,
                 Event.write 0x40080004
                   (b0.val + 2 ^ 8 * b1.val + 2 ^ 16 * b2.val + 2 ^ 24 * b3.val),
                 Event.write 0x4008000C 0x4])
          0x40080010 0x14 ≠ ERROR_OK then
        some (link.write_u32
            (t ++ [Event.write 0x40080000 addr,
                   Event.write 0x40080004
                     (b0.val + 2 ^ 8 * b1.val + 2 ^ 16 * b2.val + 2 ^ 24 * b3.val),
                   Event.write 0x4008000C 0x4])
            0x40080010 0x14,
          t ++ [Event.write 0x40080000 addr,
                Event.write 0x40080004
                  (b0.val + 2 ^ 8 * b1.val + 2 ^ 16 * b2.val + 2 ^ 24 * b3.val),
                Event.write 0x4008000C 0x4, Event.write 0x40080010 0x14])
      else if (ht32f523xx_wait_status_busy link 1000
          (t ++ [Event.write 0x40080000 addr,
                 Event.write 0x40080004
                   (b0.val + 2 ^ 8 * b1.val + 2 ^ 16 * b2.val + 2 ^ 24 * b3.val),
                 Event.write 0x4008000C 0x4, Event.write 0x40080010 0x14])).1 ≠ ERROR_OK then
        some ((ht32f523xx_wait_status_busy link 1000
            (t ++ [Event.write 0x40080000 addr,
                   Event.write 0x40080004
                     (b0.val + 2 ^ 8 * b1.val + 2 ^ 16 * b2.val + 2 ^ 24 * b3.val),
                   Event.write 0x4008000C 0x4, Event.write 0x40080010 0x14])).1,
          (ht32f523xx_wait_status_busy link 1000
            (t ++ [Event.write 0x40080000 addr,
                   Event.write 0x40080004
                     (b0.val + 2 ^ 8 * b1.val + 2 ^ 16 * b2.val + 2 ^ 24 * b3.val),
                   Event.write 0x4008000C 0x4, Event.write 0x40080010 0x14])).2)
      else
        write_loop link buffer n (i + 4) ((addr + 4) % 2 ^ 32)
          (ht32f523xx_wait_status_busy link 1000
            (t ++ [Event.write 0x40080000 addr,
                   Event.write 0x40080004
                     (b0.val + 2 ^ 8 * b1.val + 2 ^ 16 * b2.val + 2 ^ 24 * b3.val),
                   Event.write 0x4008000C 0x4, Event.write 0x40080010 0x14])).2 := by
  rw [write_loop, h0, h1, h2, h3]
  simp only [word_eq_little_endian]
  simp [target_write_u32, FMC_REG_BASE, FMC_REG_TADR, FMC_REG_WRDR, FMC_REG_OCMR,
    FMC_REG_OPCR, FMC_CMD_WORD_PROG, FMC_COMMIT, FLASH_ERASE_TIMEOUT]

/-- A poll against a link whose status reads all report the finished code: one read. -/
theorem wait_status_busy_finished (link : Link)
    (hr : ∀ t, (ht32f523xx_get_flash_status link t).1 = ERROR_OK ∧
      ((ht32f523xx_get_flash_status link t).2.1 &&& 0x1E) = 0x1C)
    (timeout : Int) (t : Trace) :
    ht32f523xx_wait_status_busy link timeout t = (ERROR_OK, t ++ [Event.read 0x40080010]) := by
  unfold ht32f523xx_wait_status_busy
  rw [wait_status_busy_loop_eq, if_neg (not_not.mpr (hr t).1), if_pos (Or.inl (hr t).2)]

/-- The write loop against a link whose writes succeed and whose status reads report
finished: `n` word-program transactions, from word `k0` on. -/
theorem write_loop_finished (link : Link) (buffer : List uint8_t) (offset : Nat)
    (hw : ∀ t a v, link.write_u32 t a v = ERROR_OK)
    (hr : ∀ t, (ht32f523xx_get_flash_status link t).1 = ERROR_OK ∧
      ((ht32f523xx_get_flash_status link t).2.1 &&& 0x1E) = 0x1C) :
    ∀ (n k0 : Nat) (t : Trace), 4 * (k0 + n) ≤ buffer.length →
      write_loop link buffer n (4 * k0) ((offset + 4 * k0) % 2 ^ 32) t
        = some (ERROR_OK,
            t ++ ((List.range n).map (fun k => spec_word_program buffer offset (k0 + k))).flatten) := by
  intro n
  induction n with
  | zero =>
    intro k0 t _
    simp [write_loop]
  | succ n ih =>
    intro k0 t hlen
    have g0 : 4 * k0 < buffer.length := by omega
    have g1 : 4 * k0 + 1 < buffer.length := by omega
    have g2 : 4 * k0 + 2 < buffer.length := by omega
    have g3 : 4 * k0 + 3 < buffer.length := by omega
    rw [write_loop_succ_eq link buffer n (4 * k0) _ t _ _ _ _
      (List.getElem?_eq_getElem g0) (List.getElem?_eq_getElem g1)
      (List.getElem?_eq_getElem g2) (List.getElem?_eq_getElem g3)]
    simp only [hw, ne_eq, not_true_eq_false, if_false, wait_status_busy_finished link hr]
    have e4 : 4 * k0 + 4 = 4 * (k0 + 1) := by omega
    have ea : ((offset + 4 * k0) % 2 ^ 32 + 4) % 2 ^ 32 = (offset + 4 * (k0 + 1)) % 2 ^ 32 := by
      omega
    rw [e4, ea, ih (k0 + 1) _ (by omega)]
    have em : (List.range (n + 1)).map (fun k => spec_word_program buffer offset (k0 + k))
        = spec_word_program buffer offset k0 ::
            (List.range n).map (fun k => spec_word_program buffer offset (k0 + 1 + k)) := by
      rw [List.range_succ_eq_map, List.map_cons, List.map_map]
      congr 1
      apply List.map_congr_left
      intro k _
      simp only [Function.comp, Nat.succ_eq_add_one]
      congr 1
      omega
    rw [em, List.flatten_cons]
    simp only [spec_word_program, List.getD_eq_getElem _ _ g0, List.getD_eq_getElem _ _ g1,
      List.getD_eq_getElem _ _ g2, List.getD_eq_getElem _ _ g3, List.append_assoc,
      List.cons_append, List.nil_append]

/-- The write function against a link whose writes succeed and whose status reads report
finished, for any 32-bit offset. -/
theorem write_finished (link : Link) (bank : flash_bank) (buffer : List uint8_t)
    (offset n : Nat) (t : Trace)
    (hhalted : bank.target.state = target_state.TARGET_HALTED)
    (hoff : offset % 4 = 0) (hoff32 : offset < 2 ^ 32) (hlen : buffer.length = 4 * n)
    (hw : ∀ t a v, link.write_u32 t a v = ERROR_OK)
    (hr : ∀ t, (ht32f523xx_get_flash_status link t).1 = ERROR_OK ∧
      ((ht32f523xx_get_flash_status link t).2.1 &&& 0x1E) = 0x1C) :
    ht32f523xx_write link bank buffer offset (4 * n) t
      = some (ERROR_OK, bank,
          t ++ ((List.range n).map (fun k => spec_word_program buffer offset k)).flatten) := by
  unfold ht32f523xx_write
  rw [if_neg (not_not.mpr hhalted)]
  simp only [and_three_eq_mod]
  rw [if_neg (not_not.mpr hoff), if_neg (not_not.mpr (by omega))]
  have hq : 4 * n / 4 = n := by omega
  have h := write_loop_finished link buffer offset hw hr n 0 t (by omega)
  simp only [Nat.mul_zero, Nat.add_zero, Nat.zero_add, Nat.mod_eq_of_lt hoff32] at h
  rw [hq, h]

/-- The test pattern written at offset 0 gives the eight transactions of the claim. -/
theorem test_write_programs_eq :
    ((List.range 8).map (fun k => spec_word_program test_write_buffer 0 k)).flatten
      = spec_test_write_programs := by
  decide

/-- C3: against a link whose writes all succeed and whose status reads all report the
finished code, on a halted bank, for an offset divisible by 4 and a buffer `b` of `4n` bytes,
`ht32f523xx_write` returns success and its accesses are exactly `n` word-program
transactions in increasing order, the `k`-th being Address `0x40080000 <- offset + 4k`, Data
`0x40080004 <- b[4k] + 2^8 b[4k+1] + 2^16 b[4k+2] + 2^24 b[4k+3]`, Command
`0x4008000C <- 0x4`, Control `0x40080010 <- 0x14`, then one status read.  The offset and the
address register are `uint32_t`: the first statement is for every 32-bit offset, with
`offset + 4k` in the 32-bit arithmetic of `addr += 4`; the second spells the transactions out
for a range that ends within the 32-bit address space, where that sum is `offset + 4k`
itself.  Third, the self-test (erase of sector 0, then write of the pattern 0..31 at offset
0) issues one page-erase transaction and then exactly the 8 word-program transactions at
addresses 0, 4, ..., 28 with the little-endian words of the pattern. -/
theorem write_issues_word_programs (link : Link)
    (hw : ∀ t a v, link.write_u32 t a v = ERROR_OK)
    (hr : ∀ t, (ht32f523xx_get_flash_status link t).1 = ERROR_OK ∧
      ((ht32f523xx_get_flash_status link t).2.1 &&& 0x1E) = 0x1C) :
    (∀ (bank : flash_bank) (buffer : List uint8_t) (offset n : Nat) (t : Trace),
      bank.target.state = target_state.TARGET_HALTED → offset % 4 = 0 →
      buffer.length = 4 * n → offset < 2 ^ 32 →
      ht32f523xx_write link bank buffer offset (4 * n) t
        = some (ERROR_OK, bank,
            t ++ ((List.range n).map (fun k => spec_word_program buffer offset k)).flatten)) ∧
    (∀ (bank : flash_bank) (buffer : List uint8_t) (offset n : Nat) (t : Trace),
      bank.target.state = target_state.TARGET_HALTED → offset % 4 = 0 →
      buffer.length = 4 * n → offset + 4 * n ≤ 2 ^ 32 →
      ht32f523xx_write link bank buffer offset (4 * n) t
        = some (ERROR_OK, bank,
            t ++ ((List.range n).map (fun k =>
              [Event.write 0x40080000 (offset + 4 * k),
               Event.write 0x40080004
                 ((buffer.getD (4 * k) 0).val + 2 ^ 8 * (buffer.getD (4 * k + 1) 0).val
                   + 2 ^ 16 * (buffer.getD (4 * k + 2) 0).val
                   + 2 ^ 24 * (buffer.getD (4 * k + 3) 0).val),
               Event.write 0x4008000C 0x4,
               Event.write 0x40080010 0x14,
               Event.read 0x40080010])).flatten)) ∧
    (∀ (bank : flash_bank) (argc : Nat) (s : flash_sector) (rest : List flash_sector)
      (t : Trace),
      bank.target.state = target_state.TARGET_HALTED → 6 ≤ argc → bank.sectors = s :: rest →
      ht32f523xx_handle_test_write link argc ERROR_OK bank t
        = some (ERROR_OK, { bank with sectors := { s with is_erased := 1 } :: rest },
            t ++ spec_page_erase s.offset ++ spec_test_write_programs)) := by
  refine ⟨?_, ?_, ?_⟩
  · intro bank buffer offset n t hhalted hoff hlen hoff32
    exact write_finished link bank buffer offset n t hhalted hoff hoff32 hlen hw hr
  · intro bank buffer offset n t hhalted hoff hlen hend
    rcases Nat.eq_zero_or_pos n with hn | hn
    · subst hn
      simp [ht32f523xx_write, hhalted, and_three_eq_mod, hoff, write_loop]
    · rw [write_finished link bank buffer offset n t hhalted hoff (by omega) hlen hw hr]
      have hm : (List.range n).map (fun k => spec_word_program buffer offset k)
          = (List.range n).map (fun k =>
              [Event.write 0x40080000 (offset + 4 * k),
               Event.write 0x40080004
                 ((buffer.getD (4 * k) 0).val + 2 ^ 8 * (buffer.getD (4 * k + 1) 0).val
                   + 2 ^ 16 * (buffer.getD (4 * k + 2) 0).val
                   + 2 ^ 24 * (buffer.getD (4 * k + 3) 0).val),
               Event.write 0x4008000C 0x4,
               Event.write 0x40080010 0x14,
               Event.read 0x40080010]) := by
        apply List.map_congr_left
        intro k hk
        have hk1 : k < n := List.mem_range.mp hk
        simp only [spec_word_program]
        rw [Nat.mod_eq_of_lt (by omega)]
      rw [hm]
  · intro bank argc s rest t hhalted hargc hsec
    have hs : bank.sectors[0]? = some s := by simp [hsec]
    have he : ht32f523xx_erase link bank 0 0 t
        = some (ERROR_OK, { bank with sectors := { s with is_erased := 1 } :: rest },
            t ++ spec_page_erase s.offset) := by
      unfold ht32f523xx_erase
      rw [if_neg (not_not.mpr hhalted)]
      show erase_loop link 1 0 bank t = _
      rw [erase_loop_succ_eq link 0 0 bank t s hs]
      simp only [hw, ne_eq, not_true_eq_false, if_false, wait_status_busy_finished link hr]
      simp [erase_loop, hsec, spec_page_erase]
    unfold ht32f523xx_handle_test_write
    rw [if_neg (by omega), if_neg (not_not.mpr rfl), he]
    simp only [ne_eq, not_true_eq_false, if_false]
    have hwr := write_finished link { bank with sectors := { s with is_erased := 1 } :: rest }
      test_write_buffer 0 8 (t ++ spec_page_erase s.offset) hhalted (by decide) (by decide)
      (by decide) hw hr
    rw [test_write_programs_eq] at hwr
    exact hwr

/-- Instance of C3: the test pattern written at offset 0 of the four-sector bank on a ready
link, and the self-test on the same bank. -/
theorem write_issues_word_programs_witness :
    ht32f523xx_write (const_link 0x1C) demo_bank test_write_buffer 0 32 []
      = some (ERROR_OK, demo_bank, spec_test_write_programs) ∧
    ht32f523xx_handle_test_write (const_link 0x1C) 6 ERROR_OK demo_bank []
      = some (ERROR_OK,
          { demo_bank with
            sectors := [⟨0, 512, 1, 1⟩, ⟨512, 512, -1, 1⟩, ⟨1024, 512, -1, 1⟩,
                        ⟨1536, 512, -1, 1⟩] },
          spec_page_erase 0 ++ spec_test_write_programs) :=
  ⟨(write_issues_word_programs (const_link 0x1C) (fun _ _ _ => rfl)
      (fun _ => ⟨rfl, show ((0x1C % 2 ^ 32) &&& 0x1E) = 0x1C by decide⟩)).2.1
      demo_bank test_write_buffer 0 8 [] (by decide) (by decide) (by decide) (by decide),
   (write_issues_word_programs (const_link 0x1C) (fun _ _ _ => rfl)
      (fun _ => ⟨rfl, show ((0x1C % 2 ^ 32) &&& 0x1E) = 0x1C by decide⟩)).2.2
      demo_bank 6 ⟨0, 512, -1, 1⟩ [⟨512, 512, -1, 1⟩, ⟨1024, 512, -1, 1⟩, ⟨1536, 512, -1, 1⟩] []
      (by decide) (by decide) (by decide)⟩

/-- On a buffer that holds the words to write, the write loop returns a result, after at most
1001 status reads per word. -/
theorem write_loop_reads (link : Link) (buffer : List uint8_t) :
    ∀ (n i addr : Nat) (t : Trace), i + 4 * n ≤ buffer.length →
      ∃ r t1, write_loop link buffer n i addr t = some (r, t1) ∧
        reads t1 ≤ reads t + 1001 * n := by
  intro n
  induction n with
  | zero =>
    intro i addr t _
    exact ⟨ERROR_OK, t, rfl, by omega⟩
  | succ n ih =>
    intro i addr t hlen
    have g0 : i < buffer.length := by omega
    have g1 : i + 1 < buffer.length := by omega
    have g2 : i + 2 < buffer.length := by omega
    have g3 : i + 3 < buffer.length := by omega
    rw [write_loop_succ_eq link buffer n i addr t _ _ _ _
      (List.getElem?_eq_getElem g0) (List.getElem?_eq_getElem g1)
      (List.getElem?_eq_getElem g2) (List.getElem?_eq_getElem g3)]
    have hw := wait_status_busy_reads_budget link
      (t ++ [Event.write 0x40080000 addr,
             Event.write 0x40080004
               (buffer[i].val + 2 ^ 8 * buffer[i + 1].val + 2 ^ 16 * buffer[i + 2].val
                 + 2 ^ 24 * buffer[i + 3].val),
             Event.write 0x4008000C 0x4, Event.write 0x40080010 0x14])
    rw [reads_append_write4] at hw
    split_ifs
    · exact ⟨_, _, rfl, by rw [reads_append_write]; omega⟩
    · exact ⟨_, _, rfl, by rw [reads_append_write2]; omega⟩
    · exact ⟨_, _, rfl, by rw [reads_append_write3]; omega⟩
    · exact ⟨_, _, rfl, by rw [reads_append_write4]; omega⟩
    · exact ⟨_, _, rfl, by omega⟩
    · obtain ⟨r, t1, h, hb⟩ := ih (i + 4) ((addr + 4) % 2 ^ 32)
        (ht32f523xx_wait_status_busy link 1000
          (t ++ [Event.write 0x40080000 addr,
                 Event.write 0x40080004
                   (buffer[i].val + 2 ^ 8 * buffer[i + 1].val + 2 ^ 16 * buffer[i + 2].val
                     + 2 ^ 24 * buffer[i + 3].val),
                 Event.write 0x4008000C 0x4, Event.write 0x40080010 0x14])).2
        (by omega)
      exact ⟨r, t1, h, by omega⟩

/-! ## Mass erase -/

/-- The mass-erase engine on a halted bank, with the link accesses written out. -/
theorem mass_erase_eq (link : Link) (bank : flash_bank) (t : Trace)
    (hhalted : bank.target.state = target_state.TARGET_HALTED) :
    ht32f523xx_mass_erase link bank t =
      if link.write_u32 t 0x4008000C 0xA ≠ ERROR_OK then
        (link.write_u32 t 0x4008000C 0xA, bank, t ++ [Event.write 0x4008000C 0xA])
      else if link.write_u32 (t ++ [Event.write 0x4008000C 0xA]) 0x40080010 0x14
          ≠ ERROR_OK then
        (link.write_u32 (t ++ [Event.write 0x4008000C 0xA]) 0x40080010 0x14, bank,
          t ++ [Event.write 0x4008000C 0xA, Event.write 0x40080010 0x14])
      else if (ht32f523xx_wait_status_busy link 1000
          (t ++ [Event.write 0x4008000C 0xA, Event.write 0x40080010 0x14])).1 ≠ ERROR_OK then
        ((ht32f523xx_wait_status_busy link 1000
            (t ++ [Event.write 0x4008000C 0xA, Event.write 0x40080010 0x14])).1,
          bank,
          (ht32f523xx_wait_status_busy link 1000
            (t ++ [Event.write 0x4008000C 0xA, Event.write 0x40080010 0x14])).2)
      else
        (ERROR_OK, bank,
          (ht32f523xx_wait_status_busy link 1000
            (t ++ [Event.write 0x4008000C 0xA, Event.write 0x40080010 0x14])).2) := by
  unfold ht32f523xx_mass_erase
  rw [if_neg (not_not.mpr hhalted)]
  simp [target_write_u32, FMC_REG_BASE, FMC_REG_OCMR, FMC_REG_OPCR, FMC_CMD_MASS_ERASE,
    FMC_COMMIT, FLASH_ERASE_TIMEOUT]

/-! ## Bounded waiting -/

/-- C6: whatever the link does, `ht32f523xx_wait_status_busy` with timeout `N ≥ 0` returns
after at most `N + 1` status reads; `ht32f523xx_mass_erase` returns after at most 1001
status reads; `ht32f523xx_erase` over a valid range of `k = last + 1 - first` sectors returns
a result after at most `1001 * k` status reads; and `ht32f523xx_write` of `n` words returns a
result after at most `1001 * n` status reads.  The functions of the model are total, and
`reads` counts all register reads of the trace. -/
theorem status_reads_bounded (link : Link) :
    (∀ (N : Nat) (t : Trace),
      reads (ht32f523xx_wait_status_busy link (N : Int) t).2 ≤ reads t + (N + 1)) ∧
    (∀ (bank : flash_bank) (t : Trace),
      reads (ht32f523xx_mass_erase link bank t).2.2 ≤ reads t + 1001) ∧
    (∀ (bank : flash_bank) (first last : Nat) (t : Trace),
      first ≤ last → last < bank.sectors.length →
      ∃ r bank1 t1, ht32f523xx_erase link bank first last t = some (r, bank1, t1) ∧
        reads t1 ≤ reads t + 1001 * (last + 1 - first)) ∧
    (∀ (bank : flash_bank) (buffer : List uint8_t) (offset n : Nat) (t : Trace),
      buffer.length = 4 * n →
      ∃ r bank1 t1, ht32f523xx_write link bank buffer offset (4 * n) t = some (r, bank1, t1) ∧
        reads t1 ≤ reads t + 1001 * n) := by
  refine ⟨?_, ?_, ?_, ?_⟩
  · intro N t
    rw [wait_status_busy_nat]
    exact wait_status_busy_loop_reads link N t
  · intro bank t
    by_cases hh : bank.target.state = target_state.TARGET_HALTED
    · rw [mass_erase_eq link bank t hh]
      have hw := wait_status_busy_reads_budget link
        (t ++ [Event.write 0x4008000C 0xA, Event.write 0x40080010 0x14])
      rw [reads_append_write2] at hw
      split_ifs
      · simp only [reads_append_write]; omega
      · simp only [reads_append_write2]; omega
      · exact hw
      · exact hw
    · unfold ht32f523xx_mass_erase
      rw [if_pos hh]
      show reads t ≤ reads t + 1001
      omega
  · intro bank first last t hfl hlast
    unfold ht32f523xx_erase
    split_ifs
    · exact ⟨_, _, _, rfl, by omega⟩
    · exact erase_loop_reads link (last + 1 - first) first bank t (by omega)
  · intro bank buffer offset n t hlen
    unfold ht32f523xx_write
    split_ifs
    · exact ⟨_, _, _, rfl, by omega⟩
    · exact ⟨_, _, _, rfl, by omega⟩
    · exact ⟨_, _, _, rfl, by omega⟩
    · have hq : 4 * n / 4 = n := by omega
      obtain ⟨r, t1, h, hb⟩ := write_loop_reads link buffer n 0 offset t (by omega)
      rw [hq, h]
      exact ⟨r, bank, t1, rfl, hb⟩

/-- Instance of C6 against a link that never reports ready: a poll with timeout 3, a mass
erase, an erase of sectors 1 and 2 and a write of 8 words. -/
theorem status_reads_bounded_witness :
    reads (ht32f523xx_wait_status_busy (const_link 0x14) ((3 : Nat) : Int) []).2
      ≤ reads [] + (3 + 1) ∧
    reads (ht32f523xx_mass_erase (const_link 0x14) demo_bank []).2.2 ≤ reads [] + 1001 ∧
    (∃ r bank1 t1, ht32f523xx_erase (const_link 0x14) demo_bank 1 2 [] = some (r, bank1, t1) ∧
        reads t1 ≤ reads [] + 1001 * (2 + 1 - 1)) ∧
    (∃ r bank1 t1, ht32f523xx_write (const_link 0x14) demo_bank test_write_buffer 0 (4 * 8) []
        = some (r, bank1, t1) ∧ reads t1 ≤ reads [] + 1001 * 8) :=
  ⟨(status_reads_bounded (const_link 0x14)).1 3 [],
   (status_reads_bounded (const_link 0x14)).2.1 demo_bank [],
   (status_reads_bounded (const_link 0x14)).2.2.1 demo_bank 1 2 [] (by decide) (by decide),
   (status_reads_bounded (const_link 0x14)).2.2.2 demo_bank test_write_buffer 0 8 []
     (by decide)⟩

/-! ## The halted check -/

/-- C7: when the target is not halted, `ht32f523xx_erase`, `ht32f523xx_write` and
`ht32f523xx_mass_erase` return `ERROR_TARGET_NOT_HALTED` for all arguments (a misaligned
offset or count included) and every link; the trace they return is the trace they were
given, so no register write and no register read was issued, and the bank they return is the
bank they were given, so every sector descriptor is unchanged. -/
theorem not_halted_rejected (link : Link) (bank : flash_bank) (t : Trace)
    (hstate : bank.target.state ≠ target_state.TARGET_HALTED) :
    (∀ first last : Nat,
      ht32f523xx_erase link bank first last t = some (ERROR_TARGET_NOT_HALTED, bank, t)) ∧
    (∀ (buffer : List uint8_t) (offset count : Nat),
      ht32f523xx_write link bank buffer offset count t
        = some (ERROR_TARGET_NOT_HALTED, bank, t)) ∧
    ht32f523xx_mass_erase link bank t = (ERROR_TARGET_NOT_HALTED, bank, t) ∧
    ERROR_TARGET_NOT_HALTED ≠ ERROR_OK := by
  refine ⟨?_, ?_, ?_, by decide⟩
  · intro first last
    unfold ht32f523xx_erase
    rw [if_pos hstate]
  · intro buffer offset count
    unfold ht32f523xx_write
    rw [if_pos hstate]
  · unfold ht32f523xx_mass_erase
    rw [if_pos hstate]

/-- Instance of C7: the three operations on a probed bank whose target is running, the write
with a misaligned offset and count. -/
theorem not_halted_rejected_witness :
    (∀ first last : Nat,
      ht32f523xx_erase (const_link 0x1C)
          (ht32f523xx_probe (blank_bank target_state.TARGET_RUNNING 2048)).2 first last []
        = some (ERROR_TARGET_NOT_HALTED,
            (ht32f523xx_probe (blank_bank target_state.TARGET_RUNNING 2048)).2, [])) ∧
    (∀ (buffer : List uint8_t) (offset count : Nat),
      ht32f523xx_write (const_link 0x1C)
          (ht32f523xx_probe (blank_bank target_state.TARGET_RUNNING 2048)).2 buffer offset count []
        = some (ERROR_TARGET_NOT_HALTED,
            (ht32f523xx_probe (blank_bank target_state.TARGET_RUNNING 2048)).2, [])) ∧
    ht32f523xx_mass_erase (const_link 0x1C)
        (ht32f523xx_probe (blank_bank target_state.TARGET_RUNNING 2048)).2 []
      = (ERROR_TARGET_NOT_HALTED,
          (ht32f523xx_probe (blank_bank target_state.TARGET_RUNNING 2048)).2, []) ∧
    ERROR_TARGET_NOT_HALTED ≠ ERROR_OK :=
  not_halted_rejected (const_link 0x1C)
    (ht32f523xx_probe (blank_bank target_state.TARGET_RUNNING 2048)).2 [] (by decide)

/-! ## Protection check -/

/-- When the sector array holds the page pairs `i .. i + n - 1`, the decoding loop returns
an array of the same length in which each sector `j` of these pairs has `is_protected` set
from the bit of pair `j / 2`, everything else being as before. -/
theorem protect_loop_spec (ob_pp : List Nat) :
    ∀ (n i : Nat) (sectors : List flash_sector), 2 * (i + n) ≤ sectors.length →
      ∃ out, protect_loop ob_pp n i sectors = some out ∧ out.length = sectors.length ∧
        ∀ j, out[j]? =
          if 2 * i ≤ j ∧ j < 2 * (i + n) then
            sectors[j]?.map (fun s =>
              { s with is_protected := if page_pair_bit ob_pp (j / 2) ≠ 0 then 0 else 1 })
          else sectors[j]? := by
  intro n
  induction n with
  | zero =>
    intro i sectors _
    refine ⟨sectors, rfl, rfl, ?_⟩
    intro j
    rw [if_neg (by omega)]
  | succ n ih =>
    intro i sectors hlen
    have g0 : 2 * i < sectors.length := by omega
    have g1 : 2 * i + 1 < sectors.length := by omega
    obtain ⟨out, hout, hlen1, hget⟩ := ih (i + 1)
      ((sectors.set (2 * i)
          { sectors[2 * i] with
            is_protected := if page_pair_bit ob_pp i ≠ 0 then 0 else 1 }).set (2 * i + 1)
          { sectors[2 * i + 1] with
            is_protected := if page_pair_bit ob_pp i ≠ 0 then 0 else 1 })
      (by simp only [List.length_set]; omega)
    refine ⟨out, ?_, ?_, ?_⟩
    · rw [protect_loop]
      simp only [sector_store, List.getElem?_eq_getElem g0]
      have g1s : 2 * i + 1 < (sectors.set (2 * i)
          { sectors[2 * i] with
            is_protected := if page_pair_bit ob_pp i ≠ 0 then 0 else 1 }).length := by
        simp only [List.length_set]; omega
      simp only [List.getElem?_eq_getElem g1s]
      rw [List.getElem_set_ne (by omega)]
      exact hout
    · simpa only [List.length_set] using hlen1
    · intro j
      rw [hget j]
      have hi0 : (2 * i) / 2 = i := by omega
      have hi1 : (2 * i + 1) / 2 = i := by omega
      by_cases h0 : j = 2 * i
      · subst h0
        have c1 : ¬ (2 * (i + 1) ≤ 2 * i ∧ 2 * i < 2 * (i + 1 + n)) := by omega
        have c2 : 2 * i ≤ 2 * i ∧ 2 * i < 2 * (i + (n + 1)) := by omega
        rw [if_neg c1, if_pos c2, List.getElem?_set_ne (by omega),
          List.getElem?_set_self g0, List.getElem?_eq_getElem g0, hi0]
        rfl
      · by_cases h1 : j = 2 * i + 1
        · subst h1
          have c1 : ¬ (2 * (i + 1) ≤ 2 * i + 1 ∧ 2 * i + 1 < 2 * (i + 1 + n)) := by omega
          have c2 : 2 * i ≤ 2 * i + 1 ∧ 2 * i + 1 < 2 * (i + (n + 1)) := by omega
          rw [if_neg c1, if_pos c2,
            List.getElem?_set_self (by simp only [List.length_set]; omega),
            List.getElem?_eq_getElem g1, hi1]
          rfl
        · rw [List.getElem?_set_ne (by omega), List.getElem?_set_ne (by omega)]
          by_cases h2 : 2 * (i + 1) ≤ j ∧ j < 2 * (i + 1 + n)
          · have c2 : 2 * i ≤ j ∧ j < 2 * (i + (n + 1)) := by omega
            rw [if_pos h2, if_pos c2]
          · have c2 : ¬ (2 * i ≤ j ∧ j < 2 * (i + (n + 1))) := by omega
            rw [if_neg h2, if_neg c2]

/-- On a bank with at least 256 sectors the protection check returns success: it reads the
four protection words and the chip-protection word, and sets `is_protected` of each of the
sectors `0 .. 255` from the bit of its page pair, everything else being as before. -/
theorem protect_check_spec (link : Link) (bank : flash_bank) (t : Trace)
    (hlen : 256 ≤ bank.sectors.length) :
    ∃ out, ht32f523xx_protect_check link bank t
        = some (ERROR_OK, { bank with sectors := out },
            (target_read_u32 link 0x1FF00010 (read_ob_pp link 4 0 t).2).2.2) ∧
      out.length = bank.sectors.length ∧
      ∀ j, out[j]? =
        if j < 256 then
          bank.sectors[j]?.map (fun s =>
            { s with is_protected :=
                if page_pair_bit (read_ob_pp link 4 0 t).1 (j / 2) ≠ 0 then 0 else 1 })
        else bank.sectors[j]? := by
  obtain ⟨out, hout, hl, hget⟩ :=
    protect_loop_spec (read_ob_pp link 4 0 t).1 128 0 bank.sectors (by omega)
  refine ⟨out, ?_, hl, ?_⟩
  · unfold ht32f523xx_protect_check
    simp only [hout]
    rfl
  · intro j
    rw [hget j]
    by_cases hj : j < 256
    · rw [if_pos (by omega), if_pos hj]
    · rw [if_neg (by omega), if_neg hj]

/-- The protection check changes no field of the bank other than the sector array. -/
theorem protect_check_frame (link : Link) (bank bank1 : flash_bank) (t t1 : Trace) (r : Int)
    (h : ht32f523xx_protect_check link bank t = some (r, bank1, t1)) :
    bank1.target = bank.target ∧ bank1.base = bank.base ∧ bank1.size = bank.size ∧
      bank1.num_sectors = bank.num_sectors := by
  unfold ht32f523xx_protect_check at h
  simp only at h
  split at h
  · cases h
  · simp only [Option.some.injEq, Prod.mk.injEq] at h
    obtain ⟨-, rfl, -⟩ := h
    exact ⟨rfl, rfl, rfl, rfl⟩

/-! ## Probe -/

/-- Entry `i` of the array that probe fills. -/
theorem probe_sectors_getElem? (page_size num_pages i : Nat) :
    (probe_sectors page_size num_pages)[i]? =
      if i < num_pages then
        some { offset := (i * page_size) % 2 ^ 32, size := page_size, is_erased := -1,
               is_protected := 1 }
      else none := by
  unfold probe_sectors
  by_cases h : i < num_pages
  · rw [if_pos h, List.getElem?_map, List.getElem?_range h]
    rfl
  · rw [if_neg h, List.getElem?_map, List.getElem?_eq_none (by simpa using h)]
    rfl

theorem probe_sectors_length (page_size num_pages : Nat) :
    (probe_sectors page_size num_pages).length = num_pages := by
  simp [probe_sectors]

/-- The erase loop changes no field of the bank other than the sector array. -/
theorem erase_loop_frame (link : Link) :
    ∀ (n i : Nat) (bank bank1 : flash_bank) (t t1 : Trace) (r : Int),
      erase_loop link n i bank t = some (r, bank1, t1) →
      bank1.target = bank.target ∧ bank1.base = bank.base ∧ bank1.size = bank.size ∧
        bank1.num_sectors = bank.num_sectors := by
  intro n
  induction n with
  | zero =>
    intro i bank bank1 t t1 r h
    simp only [erase_loop, Option.some.injEq, Prod.mk.injEq] at h
    obtain ⟨-, rfl, -⟩ := h
    exact ⟨rfl, rfl, rfl, rfl⟩
  | succ n ih =>
    intro i bank bank1 t t1 r h
    cases hs : bank.sectors[i]? with
    | none =>
      rw [erase_loop, hs] at h
      cases h
    | some s =>
      rw [erase_loop_succ_eq link n i bank t s hs] at h
      split_ifs at h
      · simp only [Option.some.injEq, Prod.mk.injEq] at h
        obtain ⟨-, rfl, -⟩ := h
        exact ⟨rfl, rfl, rfl, rfl⟩
      · simp only [Option.some.injEq, Prod.mk.injEq] at h
        obtain ⟨-, rfl, -⟩ := h
        exact ⟨rfl, rfl, rfl, rfl⟩
      · simp only [Option.some.injEq, Prod.mk.injEq] at h
        obtain ⟨-, rfl, -⟩ := h
        exact ⟨rfl, rfl, rfl, rfl⟩
      · simp only [Option.some.injEq, Prod.mk.injEq] at h
        obtain ⟨-, rfl, -⟩ := h
        exact ⟨rfl, rfl, rfl, rfl⟩
      · exact ih (i + 1)
          { bank with sectors := bank.sectors.set i { s with is_erased := 1 } } bank1 _ t1 r h

/-- C9: for every bank size `S` (a `uint32_t`), `ht32f523xx_probe` returns success, whether
or not `S` is a multiple of 512, and leaves the bank with base 0, `num_sectors = S / 512` and
an array of exactly `S / 512` sectors in which sector `i` has `offset = 512 * i`,
`size = 512`, `is_erased = -1` and `is_protected = 1`; the size and the target of the bank
are unchanged. -/
theorem probe_builds_sectors (bank : flash_bank) (hsize : bank.size < 2 ^ 32) :
    (ht32f523xx_probe bank).1 = ERROR_OK ∧
    (ht32f523xx_probe bank).2.base = 0 ∧
    (ht32f523xx_probe bank).2.num_sectors = bank.size / 512 ∧
    (ht32f523xx_probe bank).2.sectors.length = bank.size / 512 ∧
    (∀ i, i < bank.size / 512 →
      (ht32f523xx_probe bank).2.sectors[i]?
        = some { offset := 512 * i, size := 512, is_erased := -1, is_protected := 1 }) ∧
    (ht32f523xx_probe bank).2.size = bank.size ∧
    (ht32f523xx_probe bank).2.target = bank.target := by
  refine ⟨rfl, rfl, rfl, probe_sectors_length _ _, ?_, rfl, rfl⟩
  intro i hi
  show (probe_sectors 512 (bank.size / 512))[i]? = _
  rw [probe_sectors_getElem?, if_pos hi]
  have : (i * 512) % 2 ^ 32 = 512 * i := by omega
  rw [this]

/-- Instance of C9: a bank of 2148 bytes, which is not a multiple of 512, gets four
sectors. -/
theorem probe_builds_sectors_witness :
    (ht32f523xx_probe (blank_bank target_state.TARGET_HALTED 2148)).1 = ERROR_OK ∧
    (ht32f523xx_probe (blank_bank target_state.TARGET_HALTED 2148)).2.base = 0 ∧
    (ht32f523xx_probe (blank_bank target_state.TARGET_HALTED 2148)).2.num_sectors = 2148 / 512 ∧
    (ht32f523xx_probe (blank_bank target_state.TARGET_HALTED 2148)).2.sectors.length
      = 2148 / 512 ∧
    (∀ i, i < 2148 / 512 →
      (ht32f523xx_probe (blank_bank target_state.TARGET_HALTED 2148)).2.sectors[i]?
        = some { offset := 512 * i, size := 512, is_erased := -1, is_protected := 1 }) ∧
    (ht32f523xx_probe (blank_bank target_state.TARGET_HALTED 2148)).2.size = 2148 ∧
    (ht32f523xx_probe (blank_bank target_state.TARGET_HALTED 2148)).2.target
      = ⟨target_state.TARGET_HALTED⟩ :=
  probe_builds_sectors (blank_bank target_state.TARGET_HALTED 2148) (by decide)

/-- C10: the result of `ht32f523xx_probe` depends on the bank size only, not on the sectors
held before: two banks of the same size get the same sector array and sector count, whatever
arrays they held; probe after probe is a single probe; and after a first probe, an erase and
a protection check (whatever they returned), a second probe gives back exactly the bank of
the first probe, every sector again with `is_erased = -1` and `is_protected = 1`. -/
theorem probe_replaces_sectors :
    (∀ bank bank1 : flash_bank, bank1.size = bank.size →
      (ht32f523xx_probe bank1).2.sectors = (ht32f523xx_probe bank).2.sectors ∧
      (ht32f523xx_probe bank1).2.num_sectors = (ht32f523xx_probe bank).2.num_sectors ∧
      ∀ s ∈ (ht32f523xx_probe bank1).2.sectors, s.is_erased = -1 ∧ s.is_protected = 1) ∧
    (∀ bank : flash_bank,
      ht32f523xx_probe (ht32f523xx_probe bank).2 = ht32f523xx_probe bank) ∧
    (∀ (link : Link) (bank bank1 bank2 : flash_bank) (first last : Nat) (t t1 t2 : Trace)
      (r1 r2 : Int),
      ht32f523xx_erase link (ht32f523xx_probe bank).2 first last t = some (r1, bank1, t1) →
      ht32f523xx_protect_check link bank1 t1 = some (r2, bank2, t2) →
      ht32f523xx_probe bank2 = ht32f523xx_probe bank) := by
  refine ⟨?_, ?_, ?_⟩
  · intro bank bank1 hsize
    refine ⟨?_, ?_, ?_⟩
    · simp only [ht32f523xx_probe, hsize]
    · simp only [ht32f523xx_probe, hsize]
    · intro s hs
      simp only [ht32f523xx_probe, probe_sectors, List.mem_map] at hs
      obtain ⟨i, -, rfl⟩ := hs
      exact ⟨rfl, rfl⟩
  · intro bank
    rfl
  · intro link bank bank1 bank2 first last t t1 t2 r1 r2 he hp
    have h1 : bank1.target = (ht32f523xx_probe bank).2.target ∧
        bank1.base = (ht32f523xx_probe bank).2.base ∧
        bank1.size = (ht32f523xx_probe bank).2.size ∧
        bank1.num_sectors = (ht32f523xx_probe bank).2.num_sectors := by
      unfold ht32f523xx_erase at he
      split_ifs at he
      · simp only [Option.some.injEq, Prod.mk.injEq] at he
        obtain ⟨-, rfl, -⟩ := he
        exact ⟨rfl, rfl, rfl, rfl⟩
      · exact erase_loop_frame link _ _ _ _ _ _ _ he
    have h2 := protect_check_frame link bank1 bank2 t1 t2 r2 hp
    have htarget : bank2.target = bank.target := by rw [h2.1, h1.1]; rfl
    have hsize : bank2.size = bank.size := by rw [h2.2.2.1, h1.2.2.1]; rfl
    simp only [ht32f523xx_probe, htarget, hsize]

-- Evaluating the erase of the 256-sector bank takes a deeper recursion than the default.
set_option maxRecDepth 100000

/-- Instance of C10: a bank that holds erased sectors is probed to the same array as a blank
bank of its size; and the 256-sector bank, probed, erased at sectors 1 and 2 and checked for
protection, is probed back to the bank of the first probe. -/
theorem probe_replaces_sectors_witness :
    ((ht32f523xx_probe demo_bank_erased).2.sectors
        = (ht32f523xx_probe (blank_bank target_state.TARGET_HALTED 2048)).2.sectors ∧
      (ht32f523xx_probe demo_bank_erased).2.num_sectors
        = (ht32f523xx_probe (blank_bank target_state.TARGET_HALTED 2048)).2.num_sectors ∧
      ∀ s ∈ (ht32f523xx_probe demo_bank_erased).2.sectors,
        s.is_erased = -1 ∧ s.is_protected = 1) ∧
    (∃ bank2 t2,
      ht32f523xx_protect_check (const_link 0x1C) bank256_erased demo_erase_trace
        = some (ERROR_OK, bank2, t2) ∧
      ht32f523xx_probe bank2
        = ht32f523xx_probe (blank_bank target_state.TARGET_HALTED 131072)) :=
  ⟨probe_replaces_sectors.1 (blank_bank target_state.TARGET_HALTED 2048) demo_bank_erased
      (by decide),
   (protect_check_spec (const_link 0x1C) bank256_erased demo_erase_trace
      (by simp [bank256_erased, bank256, ht32f523xx_probe, probe_sectors_length,
        blank_bank])).elim
     (fun out h => ⟨_, _, h.1,
       probe_replaces_sectors.2.2 (const_link 0x1C)
         (blank_bank target_state.TARGET_HALTED 131072) bank256_erased _ 1 2 []
         demo_erase_trace _ ERROR_OK ERROR_OK (by decide) h.1⟩)⟩

/-! ## Protection check: the decoded bits -/

/-- The decoded bit of page pair `k` when all four protection words are `0xFFFFFFFF`: after
the left shift by `k % 32` bit 0 is set only when the shift count is 0. -/
theorem page_pair_bit_all_ones :
    ∀ k, k < 128 →
      page_pair_bit [0xFFFFFFFF, 0xFFFFFFFF, 0xFFFFFFFF, 0xFFFFFFFF] k
        = if k % 32 = 0 then 1 else 0 := by
  decide

/-- The decoded bit of every page pair is 0 when all four protection words are 0. -/
theorem page_pair_bit_all_zero :
    ∀ k, k < 128 → page_pair_bit [0, 0, 0, 0] k = 0 := by
  decide

/-- The sectors of the probed bank of 256 sectors. -/
theorem bank256_getElem? (j : Nat) (hj : j < 256) :
    bank256.sectors[j]?
      = some { offset := (j * 512) % 2 ^ 32, size := 512, is_erased := -1,
               is_protected := 1 } := by
  show (probe_sectors 512 256)[j]? = _
  rw [probe_sectors_getElem?, if_pos hj]

/-- C8 (the code at the failing input): on the probed bank of 256 sectors, with all four
page-protection words reading `0xFFFFFFFF`, `ht32f523xx_protect_check` returns success but
sets `is_protected = 0` only on the sectors of the page pairs 0, 32, 64 and 96 (sectors 0, 1,
64, 65, 128, 129, 192, 193); every other sector, sector 2 for one, is left with
`is_protected = 1`.  With all four words reading 0 every sector gets `is_protected = 1`, as
the claim says. -/
theorem protect_check_all_ones_at_bank256 :
    (∃ bank1 t1,
      ht32f523xx_protect_check (const_link 0xFFFFFFFF) bank256 [] = some (ERROR_OK, bank1, t1) ∧
      bank1.sectors.length = 256 ∧
      (∀ j, j < 256 →
        (bank1.sectors[j]?).map (fun s => s.is_protected)
          = some (if (j / 2) % 32 = 0 then 0 else 1)) ∧
      (bank1.sectors[2]?).map (fun s => s.is_protected) = some 1) ∧
    (∃ bank1 t1,
      ht32f523xx_protect_check (const_link 0) bank256 [] = some (ERROR_OK, bank1, t1) ∧
      bank1.sectors.length = 256 ∧
      (∀ j, j < 256 → (bank1.sectors[j]?).map (fun s => s.is_protected) = some 1)) := by
  have hlen : bank256.sectors.length = 256 := probe_sectors_length 512 256
  constructor
  · obtain ⟨out, hpc, hl, hget⟩ :=
      protect_check_spec (const_link 0xFFFFFFFF) bank256 [] (by rw [hlen])
    have hall : ∀ j, j < 256 →
        (out[j]?).map (fun s => s.is_protected)
          = some (if (j / 2) % 32 = 0 then 0 else 1) := by
      intro j hj
      have hw : (read_ob_pp (const_link 0xFFFFFFFF) 4 0 []).1
          = [0xFFFFFFFF, 0xFFFFFFFF, 0xFFFFFFFF, 0xFFFFFFFF] := rfl
      rw [hget j, if_pos hj, bank256_getElem? j hj, hw,
        page_pair_bit_all_ones (j / 2) (by omega)]
      by_cases h0 : (j / 2) % 32 = 0
      · simp [h0]
      · simp [h0]
    exact ⟨_, _, hpc, by rw [hl, hlen], hall, hall 2 (by decide)⟩
  · obtain ⟨out, hpc, hl, hget⟩ :=
      protect_check_spec (const_link 0) bank256 [] (by rw [hlen])
    refine ⟨_, _, hpc, by rw [hl, hlen], ?_⟩
    intro j hj
    have hw : (read_ob_pp (const_link 0) 4 0 []).1 = [0, 0, 0, 0] := rfl
    rw [hget j, if_pos hj, bank256_getElem? j hj, hw,
      page_pair_bit_all_zero (j / 2) (by omega)]
    simp

/-! ## The erase loop, round by round -/

/-- The erase loop is its first round followed, when that round succeeds, by the rest. -/
theorem erase_loop_unroll (link : Link) (n i : Nat) (bank : flash_bank) (t : Trace) :
    erase_loop link (n + 1) i bank t =
      match erase_loop link 1 i bank t with
      | none => none
      | some (r, bank1, t1) =>
        if r ≠ ERROR_OK then some (r, bank1, t1) else erase_loop link n (i + 1) bank1 t1 := by
  cases hs : bank.sectors[i]? with
  | none => simp [erase_loop, hs]
  | some s =>
    rw [erase_loop_succ_eq link n i bank t s hs, erase_loop_succ_eq link 0 i bank t s hs]
    split_ifs <;> simp_all [erase_loop]

/-- A round of the erase loop that fails returns the bank it was given. -/
theorem erase_round_fail_bank (link : Link) (i : Nat) (bank bank1 : flash_bank) (t t1 : Trace)
    (r : Int) (h : erase_loop link 1 i bank t = some (r, bank1, t1)) (hr : r ≠ ERROR_OK) :
    bank1 = bank := by
  cases hs : bank.sectors[i]? with
  | none => simp [erase_loop, hs] at h
  | some s =>
    rw [erase_loop_succ_eq link 0 i bank t s hs] at h
    split_ifs at h
    · simp only [Option.some.injEq, Prod.mk.injEq] at h; exact h.2.1.symm
    · simp only [Option.some.injEq, Prod.mk.injEq] at h; exact h.2.1.symm
    · simp only [Option.some.injEq, Prod.mk.injEq] at h; exact h.2.1.symm
    · simp only [Option.some.injEq, Prod.mk.injEq] at h; exact h.2.1.symm
    · simp only [erase_loop, Option.some.injEq, Prod.mk.injEq] at h
      exact absurd h.1.symm hr

/-- An erase loop that fails: some rounds `m < n` succeeded, the round of sector `i + m`
failed, and its result is the result of the loop. -/
theorem erase_loop_fail (link : Link) :
    ∀ (n i : Nat) (bank bank1 : flash_bank) (t t1 : Trace) (r : Int),
      erase_loop link n i bank t = some (r, bank1, t1) → r ≠ ERROR_OK →
      ∃ m bankm tm, m < n ∧ erase_loop link m i bank t = some (ERROR_OK, bankm, tm) ∧
        erase_loop link 1 (i + m) bankm tm = some (r, bank1, t1) ∧ bank1 = bankm := by
  intro n
  induction n with
  | zero =>
    intro i bank bank1 t t1 r h hr
    simp only [erase_loop, Option.some.injEq, Prod.mk.injEq] at h
    exact absurd h.1.symm hr
  | succ n ih =>
    intro i bank bank1 t t1 r h hr
    rw [erase_loop_unroll] at h
    cases h1 : erase_loop link 1 i bank t with
    | none => rw [h1] at h; cases h
    | some res =>
      obtain ⟨r0, b0, t0⟩ := res
      rw [h1] at h
      simp only at h
      by_cases hr0 : r0 = ERROR_OK
      · rw [if_neg (not_not.mpr hr0)] at h
        obtain ⟨m, bankm, tm, hm, hpre, hround, hb⟩ := ih (i + 1) b0 bank1 t0 t1 r h hr
        refine ⟨m + 1, bankm, tm, by omega, ?_, ?_, hb⟩
        · rw [erase_loop_unroll, h1]
          simp only
          rw [if_neg (not_not.mpr hr0)]
          exact hpre
        · have e : i + (m + 1) = i + 1 + m := by omega
          rw [e]
          exact hround
      · rw [if_pos hr0] at h
        simp only [Option.some.injEq, Prod.mk.injEq] at h
        obtain ⟨rfl, rfl, rfl⟩ := h
        refine ⟨0, bank, t, by omega, rfl, h1, ?_⟩
        exact erase_round_fail_bank link i bank _ t _ _ h1 hr0

/-- C12: prefix guarantee of erase.  On a halted bank and a valid range `[first, last]`,
when `ht32f523xx_erase` fails (returns `r ≠ ERROR_OK`) there is a sector `k` of the range
at which it failed: the rounds of the sectors `first .. k - 1` succeeded, the round of
sector `k` returned `r`, and the result of that round (error, bank and trace) is the result
of the call.  Every sector of `[first, k - 1]` has `is_erased = 1`, every other sector, `k`
and the rest of the range included, is what it was before, and no sector has its offset,
size or `is_protected` changed. -/
theorem erase_failure_keeps_prefix (link : Link) (bank bank1 : flash_bank) (first last : Nat)
    (t t1 : Trace) (r : Int)
    (hhalted : bank.target.state = target_state.TARGET_HALTED)
    (_hfirst : first ≤ last) (_hlast : last < bank.sectors.length)
    (h : ht32f523xx_erase link bank first last t = some (r, bank1, t1))
    (hr : r ≠ ERROR_OK) :
    ∃ k bankk tk, first ≤ k ∧ k ≤ last ∧
      erase_loop link (k - first) first bank t = some (ERROR_OK, bankk, tk) ∧
      erase_loop link 1 k bankk tk = some (r, bank1, t1) ∧
      bank1.sectors.length = bank.sectors.length ∧
      (∀ j, first ≤ j → j < k →
        ∃ s, bank.sectors[j]? = some s ∧ bank1.sectors[j]? = some { s with is_erased := 1 }) ∧
      (∀ j, (j < first ∨ k ≤ j) → bank1.sectors[j]? = bank.sectors[j]?) ∧
      (∀ (j : Nat) (s s1 : flash_sector), bank.sectors[j]? = some s → bank1.sectors[j]? = some s1 →
        s1.offset = s.offset ∧ s1.size = s.size ∧ s1.is_protected = s.is_protected) := by
  unfold ht32f523xx_erase at h
  rw [if_neg (not_not.mpr hhalted)] at h
  obtain ⟨m, bankm, tm, hm, hpre, hround, hb⟩ :=
    erase_loop_fail link _ _ _ _ _ _ _ h hr
  subst hb
  obtain ⟨hlen, hin, hout⟩ := erase_loop_ok_sectors link _ _ _ _ _ _ hpre
  have e : first + m - first = m := by omega
  refine ⟨first + m, bank1, tm, by omega, by omega, by rw [e]; exact hpre, hround, hlen,
    hin, ?_, ?_⟩
  · intro j hj
    exact hout j (by omega)
  · intro j s s1 hs hs1
    by_cases hj : first ≤ j ∧ j < first + m
    · obtain ⟨s0, hs0, hs10⟩ := hin j hj.1 hj.2
      rw [hs] at hs0
      rw [hs1] at hs10
      cases hs0
      cases hs10
      exact ⟨rfl, rfl, rfl⟩
    · rw [hout j (by omega), hs] at hs1
      cases hs1
      exact ⟨rfl, rfl, rfl⟩

/-- Instance of C12: an erase of sectors 1 to 3 on a link whose status read fails during the
round of sector 2; sector 1 is marked, sectors 2 and 3 are not. -/
theorem erase_failure_keeps_prefix_witness :
    ∃ k bankk tk, 1 ≤ k ∧ k ≤ 3 ∧
      erase_loop (flaky_link 5) (k - 1) 1 demo_bank [] = some (ERROR_OK, bankk, tk) ∧
      erase_loop (flaky_link 5) 1 k bankk tk
        = some (ERROR_FAIL, demo_bank_one_erased, demo_erase_trace) ∧
      demo_bank_one_erased.sectors.length = demo_bank.sectors.length ∧
      (∀ j, 1 ≤ j → j < k →
        ∃ s, demo_bank.sectors[j]? = some s ∧
          demo_bank_one_erased.sectors[j]? = some { s with is_erased := 1 }) ∧
      (∀ j, (j < 1 ∨ k ≤ j) → demo_bank_one_erased.sectors[j]? = demo_bank.sectors[j]?) ∧
      (∀ (j : Nat) (s s1 : flash_sector), demo_bank.sectors[j]? = some s →
        demo_bank_one_erased.sectors[j]? = some s1 →
        s1.offset = s.offset ∧ s1.size = s.size ∧ s1.is_protected = s.is_protected) :=
  erase_failure_keeps_prefix (flaky_link 5) demo_bank demo_bank_one_erased 1 3 []
    demo_erase_trace ERROR_FAIL (by decide) (by decide) (by decide) (by decide) (by decide)

/-! ## The geometry of the sector map is never changed -/

/-- Storing a sector with the offset and size of the one it replaces keeps the geometry. -/
theorem sector_geometry_set (sectors : List flash_sector) (i : Nat) (s s1 : flash_sector)
    (hs : sectors[i]? = some s) (ho : s1.offset = s.offset) (hz : s1.size = s.size) :
    sector_geometry (sectors.set i s1) = sector_geometry sectors := by
  apply List.ext_getElem?
  intro j
  simp only [sector_geometry, List.getElem?_map, List.getElem?_set]
  by_cases hij : i = j
  · subst hij
    have hi : i < sectors.length := (List.getElem?_eq_some.mp hs).1
    rw [if_pos rfl, if_pos hi, hs]
    simp [ho, hz]
  · rw [if_neg hij]

theorem sector_store_geometry (sectors sectors1 : List flash_sector) (i : Nat)
    (f : flash_sector → flash_sector)
    (h : sector_store sectors i f = some sectors1)
    (hf : ∀ s, (f s).offset = s.offset ∧ (f s).size = s.size) :
    sector_geometry sectors1 = sector_geometry sectors := by
  obtain ⟨s, hs, rfl⟩ := sector_store_eq_some h
  exact sector_geometry_set sectors i s (f s) hs (hf s).1 (hf s).2

/-- A round of the erase loop keeps the geometry. -/
theorem erase_round_geometry (link : Link) (i : Nat) (bank bank1 : flash_bank) (t t1 : Trace)
    (r : Int) (h : erase_loop link 1 i bank t = some (r, bank1, t1)) :
    sector_geometry bank1.sectors = sector_geometry bank.sectors := by
  cases hs : bank.sectors[i]? with
  | none => simp [erase_loop, hs] at h
  | some s =>
    rw [erase_loop_succ_eq link 0 i bank t s hs] at h
    split_ifs at h
    · simp only [Option.some.injEq, Prod.mk.injEq] at h; rw [← h.2.1]
    · simp only [Option.some.injEq, Prod.mk.injEq] at h; rw [← h.2.1]
    · simp only [Option.some.injEq, Prod.mk.injEq] at h; rw [← h.2.1]
    · simp only [Option.some.injEq, Prod.mk.injEq] at h; rw [← h.2.1]
    · simp only [erase_loop, Option.some.injEq, Prod.mk.injEq] at h
      rw [← h.2.1]
      exact sector_geometry_set bank.sectors i s _ hs rfl rfl

/-- The erase loop keeps the geometry, whatever it returns. -/
theorem erase_loop_geometry (link : Link) :
    ∀ (n i : Nat) (bank bank1 : flash_bank) (t t1 : Trace) (r : Int),
      erase_loop link n i bank t = some (r, bank1, t1) →
      sector_geometry bank1.sectors = sector_geometry bank.sectors := by
  intro n
  induction n with
  | zero =>
    intro i bank bank1 t t1 r h
    simp only [erase_loop, Option.some.injEq, Prod.mk.injEq] at h
    rw [← h.2.1]
  | succ n ih =>
    intro i bank bank1 t t1 r h
    rw [erase_loop_unroll] at h
    cases h1 : erase_loop link 1 i bank t with
    | none => rw [h1] at h; cases h
    | some res =>
      obtain ⟨r0, b0, t0⟩ := res
      rw [h1] at h
      simp only at h
      have hg := erase_round_geometry link i bank b0 t t0 r0 h1
      split_ifs at h
      · simp only [Option.some.injEq, Prod.mk.injEq] at h
        rw [← h.2.1]
        exact hg
      · rw [ih (i + 1) b0 bank1 t0 t1 r h]
        exact hg

/-- The decoding loop of the protection check keeps the geometry. -/
theorem protect_loop_geometry (ob_pp : List Nat) :
    ∀ (n i : Nat) (sectors out : List flash_sector),
      protect_loop ob_pp n i sectors = some out →
      sector_geometry out = sector_geometry sectors := by
  intro n
  induction n with
  | zero =>
    intro i sectors out h
    simp only [protect_loop, Option.some.injEq] at h
    rw [h]
  | succ n ih =>
    intro i sectors out h
    rw [protect_loop] at h
    split at h
    · cases h
    · next s1 h1 =>
      split at h
      · cases h
      · next s2 h2 =>
        rw [ih (i + 1) s2 out h,
          sector_store_geometry s1 s2 _ _ h2 (fun _ => ⟨rfl, rfl⟩),
          sector_store_geometry sectors s1 _ _ h1 (fun _ => ⟨rfl, rfl⟩)]

/-- The mass-erase engine returns the bank it was given. -/
theorem mass_erase_bank (link : Link) (bank : flash_bank) (t : Trace) :
    (ht32f523xx_mass_erase link bank t).2.1 = bank := by
  unfold ht32f523xx_mass_erase
  simp only []
  split_ifs <;> rfl

/-- The handler of the mass-erase command returns the bank it was given, or that bank with
the first `num_sectors` sectors marked erased. -/
theorem handle_mass_erase_command_bank (link : Link) (argc : Nat) (get_bank : Int)
    (bank bank1 : flash_bank) (t t1 : Trace) (r : Int)
    (h : ht32f523xx_handle_mass_erase_command link argc get_bank bank t = some (r, bank1, t1)) :
    bank1 = bank ∨
    bank1 = { bank with sectors :=
      (bank.sectors.take bank.num_sectors).map (fun x => { x with is_erased := 1 })
        ++ bank.sectors.drop bank.num_sectors } := by
  unfold ht32f523xx_handle_mass_erase_command at h
  have hb := mass_erase_bank link bank t
  split_ifs at h with h1 h2
  · simp only [Option.some.injEq, Prod.mk.injEq] at h
    exact Or.inl h.2.1.symm
  · simp only [Option.some.injEq, Prod.mk.injEq] at h
    exact Or.inl h.2.1.symm
  · simp only [] at h
    rw [hb] at h
    split_ifs at h
    · simp only [Option.some.injEq, Prod.mk.injEq] at h
      exact Or.inr h.2.1.symm
    · simp only [Option.some.injEq, Prod.mk.injEq] at h
      exact Or.inl h.2.1.symm

/-- Every operation leaves the size, the sector count, the target, the base and the
geometry of the bank as they were, whatever it returns. -/
theorem run_op_geometry (link : Link) (op : flash_op) (bank bank1 : flash_bank) (t t1 : Trace)
    (r : Int) (h : run_op link op bank t = some (r, bank1, t1)) :
    bank1.target = bank.target ∧ bank1.base = bank.base ∧ bank1.size = bank.size ∧
      bank1.num_sectors = bank.num_sectors ∧
      sector_geometry bank1.sectors = sector_geometry bank.sectors := by
  cases op with
  | erase first last =>
    simp only [run_op, ht32f523xx_erase] at h
    split_ifs at h
    · simp only [Option.some.injEq, Prod.mk.injEq] at h
      obtain ⟨-, rfl, -⟩ := h
      exact ⟨rfl, rfl, rfl, rfl, rfl⟩
    · obtain ⟨h1, h2, h3, h4⟩ := erase_loop_frame link _ _ _ _ _ _ _ h
      exact ⟨h1, h2, h3, h4, erase_loop_geometry link _ _ _ _ _ _ _ h⟩
  | write buffer offset count =>
    simp only [run_op, ht32f523xx_write] at h
    split_ifs at h
    · simp only [Option.some.injEq, Prod.mk.injEq] at h
      obtain ⟨-, rfl, -⟩ := h
      exact ⟨rfl, rfl, rfl, rfl, rfl⟩
    · simp only [Option.some.injEq, Prod.mk.injEq] at h
      obtain ⟨-, rfl, -⟩ := h
      exact ⟨rfl, rfl, rfl, rfl, rfl⟩
    · simp only [Option.some.injEq, Prod.mk.injEq] at h
      obtain ⟨-, rfl, -⟩ := h
      exact ⟨rfl, rfl, rfl, rfl, rfl⟩
    · split at h
      · cases h
      · simp only [Option.some.injEq, Prod.mk.injEq] at h
        obtain ⟨-, rfl, -⟩ := h
        exact ⟨rfl, rfl, rfl, rfl, rfl⟩
  | mass_erase =>
    simp only [run_op, Option.some.injEq] at h
    have hb := mass_erase_bank link bank t
    rw [h] at hb
    simp only at hb
    subst hb
    exact ⟨rfl, rfl, rfl, rfl, rfl⟩
  | mass_erase_command argc get_bank =>
    simp only [run_op] at h
    rcases handle_mass_erase_command_bank link argc get_bank bank bank1 t t1 r h with hb | hb
    · subst hb
      exact ⟨rfl, rfl, rfl, rfl, rfl⟩
    · subst hb
      refine ⟨rfl, rfl, rfl, rfl, ?_⟩
      simp only [sector_geometry, List.map_append, List.map_map]
      have hf : ((fun s : flash_sector => (s.offset, s.size)) ∘
          fun x : flash_sector => { x with is_erased := 1 })
          = fun s : flash_sector => (s.offset, s.size) := rfl
      rw [hf, ← List.map_append, List.take_append_drop]
  | protect_check =>
    simp only [run_op] at h
    obtain ⟨h1, h2, h3, h4⟩ := protect_check_frame link bank bank1 t t1 r h
    refine ⟨h1, h2, h3, h4, ?_⟩
    unfold ht32f523xx_protect_check at h
    simp only at h
    split at h
    · cases h
    · next out hout =>
      simp only [Option.some.injEq, Prod.mk.injEq] at h
      rw [← h.2.1]
      exact protect_loop_geometry _ _ _ _ _ hout

/-- A sequence of calls leaves the size, the sector count and the geometry of the bank as
they were. -/
theorem run_ops_geometry (link : Link) :
    ∀ (ops : List flash_op) (bank bank1 : flash_bank) (t t1 : Trace),
      run_ops link ops bank t = some (bank1, t1) →
      bank1.size = bank.size ∧ bank1.num_sectors = bank.num_sectors ∧
        sector_geometry bank1.sectors = sector_geometry bank.sectors := by
  intro ops
  induction ops with
  | nil =>
    intro bank bank1 t t1 h
    simp only [run_ops, Option.some.injEq, Prod.mk.injEq] at h
    rw [← h.1]
    exact ⟨rfl, rfl, rfl⟩
  | cons op ops ih =>
    intro bank bank1 t t1 h
    rw [run_ops] at h
    cases h1 : run_op link op bank t with
    | none => rw [h1] at h; cases h
    | some res =>
      obtain ⟨r0, b0, t0⟩ := res
      rw [h1] at h
      obtain ⟨-, -, g3, g4, g5⟩ := run_op_geometry link op bank b0 t t0 r0 h1
      obtain ⟨e3, e4, e5⟩ := ih b0 bank1 t0 t1 h
      exact ⟨e3.trans g3, e4.trans g4, e5.trans g5⟩

/-- A sector of an array with the geometry of a probed array is where probe put it. -/
theorem geometry_of_probe (sectors : List flash_sector) (n i : Nat) (s : flash_sector)
    (hg : sector_geometry sectors = sector_geometry (probe_sectors 512 n))
    (hs : sectors[i]? = some s) :
    i < n ∧ s.offset = (i * 512) % 2 ^ 32 ∧ s.size = 512 := by
  have h1 : (sector_geometry sectors)[i]? = some (s.offset, s.size) := by
    simp [sector_geometry, hs]
  rw [hg] at h1
  simp only [sector_geometry, List.getElem?_map, probe_sectors_getElem?] at h1
  by_cases hi : i < n
  · rw [if_pos hi] at h1
    simp only [Option.map_some', Option.some.injEq, Prod.mk.injEq] at h1
    exact ⟨hi, h1.1.symm, h1.2.symm⟩
  · rw [if_neg hi] at h1
    simp at h1

/-! ## The sector-map invariant -/

/-- C11 (counterexample): a bank of 2148 bytes is probed to 4 sectors of 512 bytes, so that
right after probe, before any other call, sector count times sector size is 2048 and not
the bank size. -/
theorem sector_count_times_size_ne_bank_size :
    run_ops (const_link 0x1C) [] (ht32f523xx_probe (blank_bank target_state.TARGET_HALTED 2148)).2 []
      = some ((ht32f523xx_probe (blank_bank target_state.TARGET_HALTED 2148)).2, []) ∧
    (ht32f523xx_probe (blank_bank target_state.TARGET_HALTED 2148)).2.size = 2148 ∧
    (ht32f523xx_probe (blank_bank target_state.TARGET_HALTED 2148)).2.num_sectors = 4 ∧
    (ht32f523xx_probe (blank_bank target_state.TARGET_HALTED 2148)).2.sectors.length = 4 ∧
    (∀ s ∈ (ht32f523xx_probe (blank_bank target_state.TARGET_HALTED 2148)).2.sectors,
      s.size = 512) ∧
    (ht32f523xx_probe (blank_bank target_state.TARGET_HALTED 2148)).2.num_sectors * 512
      ≠ (ht32f523xx_probe (blank_bank target_state.TARGET_HALTED 2148)).2.size := by
  decide

/-- C11 (amended): for every bank size `S` (a `uint32_t`), after `ht32f523xx_probe` and after
any sequence of erase, write, mass-erase (engine or command) and protection-check calls that
return, the bank keeps its size, it has `S / 512` sectors, sector 0 starts at offset 0, each
sector starts where the previous one ends, the offsets are strictly increasing and the
sectors do not overlap, sector `i` being at offset `512 * i` with size 512; and sector count
times sector size is `512 * (S / 512)`, which is at most `S` and is `S` exactly when `S` is a
multiple of 512. -/
theorem sector_map_invariant (link : Link) (bank bank1 : flash_bank) (ops : List flash_op)
    (t t1 : Trace) (hsize : bank.size < 2 ^ 32)
    (hrun : run_ops link ops (ht32f523xx_probe bank).2 t = some (bank1, t1)) :
    bank1.size = bank.size ∧
    bank1.num_sectors = bank.size / 512 ∧
    bank1.sectors.length = bank.size / 512 ∧
    (∀ s : flash_sector, bank1.sectors[0]? = some s → s.offset = 0) ∧
    (∀ (i : Nat) (s s1 : flash_sector), bank1.sectors[i]? = some s →
      bank1.sectors[i + 1]? = some s1 → s1.offset = s.offset + s.size) ∧
    (∀ (i j : Nat) (s s1 : flash_sector), i < j → bank1.sectors[i]? = some s →
      bank1.sectors[j]? = some s1 → s.offset < s1.offset ∧ s.offset + s.size ≤ s1.offset) ∧
    (∀ (i : Nat) (s : flash_sector), bank1.sectors[i]? = some s →
      s.offset = 512 * i ∧ s.size = 512) ∧
    bank1.num_sectors * 512 = 512 * (bank.size / 512) ∧
    bank1.num_sectors * 512 ≤ bank.size ∧
    (bank1.num_sectors * 512 = bank.size ↔ bank.size % 512 = 0) := by
  obtain ⟨h1, h2, h3⟩ := run_ops_geometry link ops _ bank1 t t1 hrun
  have hsz : bank1.size = bank.size := h1
  have hnum : bank1.num_sectors = bank.size / 512 := h2
  have hgeo : sector_geometry bank1.sectors
      = sector_geometry (probe_sectors 512 (bank.size / 512)) := h3
  have hlen : bank1.sectors.length = bank.size / 512 := by
    have := congrArg List.length hgeo
    simpa [sector_geometry, probe_sectors_length] using this
  have hat : ∀ (i : Nat) (s : flash_sector), bank1.sectors[i]? = some s →
      s.offset = 512 * i ∧ s.size = 512 := by
    intro i s hs
    obtain ⟨hi, ho, hz⟩ := geometry_of_probe bank1.sectors _ i s hgeo hs
    refine ⟨?_, hz⟩
    rw [ho]
    omega
  refine ⟨hsz, hnum, hlen, ?_, ?_, ?_, hat, ?_, ?_, ?_⟩
  · intro s hs
    have := (hat 0 s hs).1
    omega
  · intro i s s1 hs hs1
    have a := hat i s hs
    have b := hat (i + 1) s1 hs1
    omega
  · intro i j s s1 hij hs hs1
    have a := hat i s hs
    have b := hat j s1 hs1
    omega
  · rw [hnum]; omega
  · rw [hnum]; omega
  · rw [hnum]; omega

/-- Instance of C11: the 256-sector bank after an erase of sectors 1 and 2, a write of the
test pattern, a mass erase and a protection check on a ready link. -/
theorem sector_map_invariant_witness :
    bank256_erased.size = 131072 ∧
    bank256_erased.num_sectors = 131072 / 512 ∧
    bank256_erased.sectors.length = 131072 / 512 ∧
    (∀ s : flash_sector, bank256_erased.sectors[0]? = some s → s.offset = 0) ∧
    (∀ (i : Nat) (s s1 : flash_sector), bank256_erased.sectors[i]? = some s →
      bank256_erased.sectors[i + 1]? = some s1 → s1.offset = s.offset + s.size) ∧
    (∀ (i j : Nat) (s s1 : flash_sector), i < j → bank256_erased.sectors[i]? = some s →
      bank256_erased.sectors[j]? = some s1 →
      s.offset < s1.offset ∧ s.offset + s.size ≤ s1.offset) ∧
    (∀ (i : Nat) (s : flash_sector), bank256_erased.sectors[i]? = some s →
      s.offset = 512 * i ∧ s.size = 512) ∧
    bank256_erased.num_sectors * 512 = 512 * (131072 / 512) ∧
    bank256_erased.num_sectors * 512 ≤ 131072 ∧
    (bank256_erased.num_sectors * 512 = 131072 ↔ 131072 % 512 = 0) :=
  sector_map_invariant (const_link 0x1C) (blank_bank target_state.TARGET_HALTED 131072)
    bank256_erased
    [flash_op.erase 1 2, flash_op.write test_write_buffer 0 32, flash_op.mass_erase,
     flash_op.protect_check]
    [] demo_ops_trace (by decide) (by decide)

/-! ## Link failures end the operation -/

/-- Accesses that all succeed are skipped by the search for the first failure. -/
theorem first_failure_append (link : Link) :
    ∀ (a b t : Trace), first_failure link t a = none →
      first_failure link t (a ++ b) = first_failure link (t ++ a) b := by
  intro a
  induction a with
  | nil =>
    intro b t _
    simp
  | cons e rest ih =>
    intro b t h
    rw [first_failure] at h
    split_ifs at h with hc
    rw [List.cons_append, first_failure, if_neg hc, ih b (t ++ [e]) h]
    simp

/-- An operation that stops at the first failure, run after accesses that all succeeded. -/
theorem stops_after_clean (link : Link) (t a t1 : Trace) (r : Int)
    (ha : first_failure link t a = none)
    (h : stops_at_first_failure link (t ++ a) r t1) :
    stops_at_first_failure link t r t1 := by
  obtain ⟨evs, ht1, hf⟩ := h
  refine ⟨a ++ evs, by rw [ht1, List.append_assoc], ?_⟩
  rw [first_failure_append link a evs t ha]
  exact hf

/-- The poll stops at the first failing status read. -/
theorem wait_status_busy_loop_stops (link : Link) :
    ∀ (n : Nat) (t : Trace),
      stops_at_first_failure link t (wait_status_busy_loop link n t).1
        (wait_status_busy_loop link n t).2 := by
  intro n
  induction n with
  | zero =>
    intro t
    rw [wait_status_busy_loop_eq]
    split_ifs with h1 h2
    · exact ⟨[Event.read 0x40080010], rfl, Or.inr ⟨h1, by
        rw [first_failure, if_pos (by exact h1)]; rfl⟩⟩
    · exact ⟨[Event.read 0x40080010], rfl, Or.inl (by
        rw [first_failure, if_neg (by exact h1)]; rfl)⟩
    · exact ⟨[Event.read 0x40080010], rfl, Or.inl (by
        rw [first_failure, if_neg (by exact h1)]; rfl)⟩
  | succ n ih =>
    intro t
    rw [wait_status_busy_loop_eq]
    split_ifs with h1 h2
    · exact ⟨[Event.read 0x40080010], rfl, Or.inr ⟨h1, by
        rw [first_failure, if_pos (by exact h1)]; rfl⟩⟩
    · exact ⟨[Event.read 0x40080010], rfl, Or.inl (by
        rw [first_failure, if_neg (by exact h1)]; rfl)⟩
    · apply stops_after_clean link t [Event.read 0x40080010, Event.sleep 10]
      · have h1r : (link.read_u32 t 0x40080010).1 = ERROR_OK := not_not.mp h1
        simp [first_failure, link_code, h1r]
      · exact ih _

theorem wait_status_busy_stops (link : Link) (timeout : Int) (t : Trace) :
    stops_at_first_failure link t (ht32f523xx_wait_status_busy link timeout t).1
      (ht32f523xx_wait_status_busy link timeout t).2 :=
  wait_status_busy_loop_stops link timeout.toNat t

/-- A round of the erase loop stops at the first failing access. -/
theorem erase_round_stops (link : Link) (i : Nat) (bank bank1 : flash_bank) (t t1 : Trace)
    (r : Int) (h : erase_loop link 1 i bank t = some (r, bank1, t1)) :
    stops_at_first_failure link t r t1 := by
  cases hs : bank.sectors[i]? with
  | none => simp [erase_loop, hs] at h
  | some s =>
    rw [erase_loop_succ_eq link 0 i bank t s hs] at h
    have hwait := wait_status_busy_stops link 1000
      (t ++ [Event.write 0x40080000 s.offset, Event.write 0x4008000C 0x8,
             Event.write 0x40080010 0x14])
    split_ifs at h with h1 h2 h3 h4
    · simp only [Option.some.injEq, Prod.mk.injEq] at h
      obtain ⟨rfl, -, rfl⟩ := h
      exact ⟨_, rfl, Or.inr ⟨h1, by simp [first_failure, link_code, h1]⟩⟩
    · simp only [Option.some.injEq, Prod.mk.injEq] at h
      obtain ⟨rfl, -, rfl⟩ := h
      rw [not_not] at h1
      exact ⟨_, rfl, Or.inr ⟨h2, by simp [first_failure, link_code, h1, h2]⟩⟩
    · simp only [Option.some.injEq, Prod.mk.injEq] at h
      obtain ⟨rfl, -, rfl⟩ := h
      rw [not_not] at h1 h2
      exact ⟨_, rfl, Or.inr ⟨h3, by simp [first_failure, link_code, h1, h2, h3]⟩⟩
    · simp only [Option.some.injEq, Prod.mk.injEq] at h
      obtain ⟨rfl, -, rfl⟩ := h
      rw [not_not] at h1 h2 h3
      exact stops_after_clean link t _ _ _
        (by simp [first_failure, link_code, h1, h2, h3]) hwait
    · simp only [erase_loop, Option.some.injEq, Prod.mk.injEq] at h
      obtain ⟨rfl, -, rfl⟩ := h
      rw [not_not] at h1 h2 h3 h4
      rw [h4] at hwait
      exact stops_after_clean link t _ _ _
        (by simp [first_failure, link_code, h1, h2, h3]) hwait

/-- A result `ERROR_OK` of an operation that stops at the first failure: no access failed. -/
theorem stops_ok_clean (link : Link) (t t1 : Trace)
    (h : stops_at_first_failure link t ERROR_OK t1) :
    ∃ evs, t1 = t ++ evs ∧ first_failure link t evs = none := by
  obtain ⟨evs, ht1, hf⟩ := h
  rcases hf with hf | hf
  · exact ⟨evs, ht1, hf⟩
  · exact absurd rfl hf.1

/-- The erase loop stops at the first failing access. -/
theorem erase_loop_stops (link : Link) :
    ∀ (n i : Nat) (bank bank1 : flash_bank) (t t1 : Trace) (r : Int),
      erase_loop link n i bank t = some (r, bank1, t1) →
      stops_at_first_failure link t r t1 := by
  intro n
  induction n with
  | zero =>
    intro i bank bank1 t t1 r h
    simp only [erase_loop, Option.some.injEq, Prod.mk.injEq] at h
    obtain ⟨-, -, rfl⟩ := h
    exact ⟨[], by simp, Or.inl rfl⟩
  | succ n ih =>
    intro i bank bank1 t t1 r h
    rw [erase_loop_unroll] at h
    cases h1 : erase_loop link 1 i bank t with
    | none => rw [h1] at h; cases h
    | some res =>
      obtain ⟨r0, b0, t0⟩ := res
      rw [h1] at h
      simp only at h
      have hround := erase_round_stops link i bank b0 t t0 r0 h1
      by_cases hr0 : r0 = ERROR_OK
      · rw [if_neg (not_not.mpr hr0)] at h
        subst hr0
        obtain ⟨evs, ht0, hclean⟩ := stops_ok_clean link t t0 hround
        have hrest := ih (i + 1) b0 bank1 t0 t1 r h
        rw [ht0] at hrest
        exact stops_after_clean link t evs t1 r hclean hrest
      · rw [if_pos hr0] at h
        simp only [Option.some.injEq, Prod.mk.injEq] at h
        obtain ⟨rfl, -, rfl⟩ := h
        exact hround

/-- The write loop stops at the first failing access. -/
theorem write_loop_stops (link : Link) (buffer : List uint8_t) :
    ∀ (n i addr : Nat) (t t1 : Trace) (r : Int),
      write_loop link buffer n i addr t = some (r, t1) →
      stops_at_first_failure link t r t1 := by
  intro n
  induction n with
  | zero =>
    intro i addr t t1 r h
    simp only [write_loop, Option.some.injEq, Prod.mk.injEq] at h
    obtain ⟨-, rfl⟩ := h
    exact ⟨[], by simp, Or.inl rfl⟩
  | succ n ih =>
    intro i addr t t1 r h
    cases h0 : buffer[i]? with
    | none => simp [write_loop, h0] at h
    | some b0 =>
    cases h1 : buffer[i + 1]? with
    | none => simp [write_loop, h0, h1] at h
    | some b1 =>
    cases h2 : buffer[i + 2]? with
    | none => simp [write_loop, h0, h1, h2] at h
    | some b2 =>
    cases h3 : buffer[i + 3]? with
    | none => simp [write_loop, h0, h1, h2, h3] at h
    | some b3 =>
    rw [write_loop_succ_eq link buffer n i addr t b0 b1 b2 b3 h0 h1 h2 h3] at h
    have hwait := wait_status_busy_stops link 1000
      (t ++ [Event.write 0x40080000 addr,
             Event.write 0x40080004
               (b0.val + 2 ^ 8 * b1.val + 2 ^ 16 * b2.val + 2 ^ 24 * b3.val),
             Event.write 0x4008000C 0x4, Event.write 0x40080010 0x14])
    generalize b0.val + 2 ^ 8 * b1.val + 2 ^ 16 * b2.val + 2 ^ 24 * b3.val = word at h hwait
    split_ifs at h with c1 c2 c3 c4 c5
    · simp only [Option.some.injEq, Prod.mk.injEq] at h
      obtain ⟨rfl, rfl⟩ := h
      exact ⟨_, rfl, Or.inr ⟨c1, by simp [first_failure, link_code, c1]⟩⟩
    · simp only [Option.some.injEq, Prod.mk.injEq] at h
      obtain ⟨rfl, rfl⟩ := h
      rw [not_not] at c1
      exact ⟨_, rfl, Or.inr ⟨c2, by simp [first_failure, link_code, c1, c2]⟩⟩
    · simp only [Option.some.injEq, Prod.mk.injEq] at h
      obtain ⟨rfl, rfl⟩ := h
      rw [not_not] at c1 c2
      exact ⟨_, rfl, Or.inr ⟨c3, by simp [first_failure, link_code, c1, c2, c3]⟩⟩
    · simp only [Option.some.injEq, Prod.mk.injEq] at h
      obtain ⟨rfl, rfl⟩ := h
      rw [not_not] at c1 c2 c3
      exact ⟨_, rfl, Or.inr ⟨c4, by simp [first_failure, link_code, c1, c2, c3, c4]⟩⟩
    · simp only [Option.some.injEq, Prod.mk.injEq] at h
      obtain ⟨rfl, rfl⟩ := h
      rw [not_not] at c1 c2 c3 c4
      exact stops_after_clean link t _ _ _
        (by simp [first_failure, link_code, c1, c2, c3, c4]) hwait
    · rw [not_not] at c1 c2 c3 c4 c5
      rw [c5] at hwait
      obtain ⟨evs, ht0, hclean⟩ := stops_ok_clean link _ _ hwait
      have hrest := ih _ _ _ t1 r h
      rw [ht0] at hrest
      have h5 := stops_after_clean link _ evs t1 r hclean hrest
      exact stops_after_clean link t _ t1 r
        (by simp [first_failure, link_code, c1, c2, c3, c4]) h5

/-- The mass-erase engine stops at the first failing access. -/
theorem mass_erase_stops (link : Link) (bank : flash_bank) (t : Trace) :
    stops_at_first_failure link t (ht32f523xx_mass_erase link bank t).1
      (ht32f523xx_mass_erase link bank t).2.2 := by
  by_cases hh : bank.target.state = target_state.TARGET_HALTED
  · rw [mass_erase_eq link bank t hh]
    have hwait := wait_status_busy_stops link 1000
      (t ++ [Event.write 0x4008000C 0xA, Event.write 0x40080010 0x14])
    split_ifs with h1 h2 h3
    · exact ⟨_, rfl, Or.inr ⟨h1, by simp [first_failure, link_code, h1]⟩⟩
    · rw [not_not] at h1
      exact ⟨_, rfl, Or.inr ⟨h2, by simp [first_failure, link_code, h1, h2]⟩⟩
    · rw [not_not] at h1 h2
      exact stops_after_clean link t _ _ _ (by simp [first_failure, link_code, h1, h2]) hwait
    · rw [not_not] at h1 h2 h3
      rw [h3] at hwait
      exact stops_after_clean link t _ _ _ (by simp [first_failure, link_code, h1, h2]) hwait
  · unfold ht32f523xx_mass_erase
    rw [if_pos hh]
    exact ⟨[], by simp, Or.inl rfl⟩

/-- C13: in `ht32f523xx_erase`, `ht32f523xx_write` and `ht32f523xx_mass_erase` the first
link access that fails ends the operation.  The trace returned extends the trace given by
the accesses `evs` of the call, nothing being taken back; and either no access of `evs`
failed on the link, or the call failed with exactly the return code the link gave to the
first failing access of `evs` (a register write or a status read), and no access follows
that one: it is not retried and no further read or write is issued. -/
theorem link_failure_ends_operation (link : Link) :
    (∀ (bank bank1 : flash_bank) (first last : Nat) (t t1 : Trace) (r : Int),
      ht32f523xx_erase link bank first last t = some (r, bank1, t1) →
      ∃ evs, t1 = t ++ evs ∧
        (first_failure link t evs = none ∨
          (r ≠ ERROR_OK ∧ first_failure link t evs = some (r, [])))) ∧
    (∀ (bank bank1 : flash_bank) (buffer : List uint8_t) (offset count : Nat) (t t1 : Trace)
      (r : Int),
      ht32f523xx_write link bank buffer offset count t = some (r, bank1, t1) →
      ∃ evs, t1 = t ++ evs ∧
        (first_failure link t evs = none ∨
          (r ≠ ERROR_OK ∧ first_failure link t evs = some (r, [])))) ∧
    (∀ (bank : flash_bank) (t : Trace),
      ∃ evs, (ht32f523xx_mass_erase link bank t).2.2 = t ++ evs ∧
        (first_failure link t evs = none ∨
          ((ht32f523xx_mass_erase link bank t).1 ≠ ERROR_OK ∧
            first_failure link t evs = some ((ht32f523xx_mass_erase link bank t).1, [])))) := by
  refine ⟨?_, ?_, ?_⟩
  · intro bank bank1 first last t t1 r h
    unfold ht32f523xx_erase at h
    split_ifs at h
    · simp only [Option.some.injEq, Prod.mk.injEq] at h
      obtain ⟨-, -, rfl⟩ := h
      exact ⟨[], by simp, Or.inl rfl⟩
    · exact erase_loop_stops link _ _ _ _ _ _ _ h
  · intro bank bank1 buffer offset count t t1 r h
    unfold ht32f523xx_write at h
    split_ifs at h
    · simp only [Option.some.injEq, Prod.mk.injEq] at h
      obtain ⟨-, -, rfl⟩ := h
      exact ⟨[], by simp, Or.inl rfl⟩
    · simp only [Option.some.injEq, Prod.mk.injEq] at h
      obtain ⟨-, -, rfl⟩ := h
      exact ⟨[], by simp, Or.inl rfl⟩
    · simp only [Option.some.injEq, Prod.mk.injEq] at h
      obtain ⟨-, -, rfl⟩ := h
      exact ⟨[], by simp, Or.inl rfl⟩
    · split at h
      · cases h
      · next r0 t0 hloop =>
        simp only [Option.some.injEq, Prod.mk.injEq] at h
        obtain ⟨rfl, -, rfl⟩ := h
        exact write_loop_stops link buffer _ _ _ _ _ _ hloop
  · intro bank t
    exact mass_erase_stops link bank t

/-- Instance of C13: the erase of sectors 1 to 3 on the link whose status read fails in the
round of sector 2 returns the code of that read, which is its last access. -/
theorem link_failure_ends_operation_witness :
    ∃ evs, demo_erase_trace = [] ++ evs ∧
      (first_failure (flaky_link 5) [] evs = none ∨
        (ERROR_FAIL ≠ ERROR_OK ∧ first_failure (flaky_link 5) [] evs = some (ERROR_FAIL, []))) :=
  (link_failure_ends_operation (flaky_link 5)).1 demo_bank demo_bank_one_erased 1 3 []
    demo_erase_trace ERROR_FAIL (by decide)

/-! ## Protection check: the return codes of the reads -/

/-- C14 (the code at the failing input): on the probed bank of 256 sectors and a link on
which every read fails with `ERROR_FAIL`, `ht32f523xx_protect_check` does not stop at the
first failed read and does not return the failure: it issues all five option-byte reads,
returns `ERROR_OK`, and stores an `is_protected` flag, decoded from the words left in the
buffer, into every one of the 256 sectors. -/
theorem protect_check_ignores_read_failure :
    (∀ (t : Trace) (a : Nat), (target_read_u32 dead_link a t).1 = ERROR_FAIL) ∧
    ERROR_FAIL ≠ ERROR_OK ∧
    ∃ bank1,
      ht32f523xx_protect_check dead_link bank256 []
        = some (ERROR_OK, bank1,
            [Event.read 0x1FF00000, Event.read 0x1FF00004, Event.read 0x1FF00008,
             Event.read 0x1FF0000C, Event.read 0x1FF00010]) ∧
      first_failure dead_link []
          [Event.read 0x1FF00000, Event.read 0x1FF00004, Event.read 0x1FF00008,
           Event.read 0x1FF0000C, Event.read 0x1FF00010]
        = some (ERROR_FAIL,
            [Event.read 0x1FF00004, Event.read 0x1FF00008, Event.read 0x1FF0000C,
             Event.read 0x1FF00010]) ∧
      bank1.sectors.length = 256 ∧
      (∀ j, j < 256 →
        bank1.sectors[j]? = (bank256.sectors[j]?).map (fun s =>
          { s with is_protected :=
              if page_pair_bit [0, 0, 0, 0] (j / 2) ≠ 0 then 0 else 1 })) := by
  have hlen : bank256.sectors.length = 256 := probe_sectors_length 512 256
  refine ⟨fun _ _ => rfl, by decide, ?_⟩
  obtain ⟨out, hpc, hl, hget⟩ := protect_check_spec dead_link bank256 [] (by rw [hlen])
  refine ⟨_, hpc, by decide, by rw [hl, hlen], ?_⟩
  intro j hj
  have hw : (read_ob_pp dead_link 4 0 []).1 = [0, 0, 0, 0] := rfl
  rw [hget j, if_pos hj, hw]

/-! ## Write and mass erase leave the sector descriptors alone -/

/-- C15: neither `ht32f523xx_write` nor the engine `ht32f523xx_mass_erase` modifies a sector
descriptor.  For every bank, every argument and every link, whatever the call returns
(success or any error), the bank it leaves is the bank it was given: every sector has the
offset, size, `is_erased` and `is_protected` it had before. -/
theorem write_and_mass_erase_keep_bank (link : Link) :
    (∀ (bank bank1 : flash_bank) (buffer : List uint8_t) (offset count : Nat) (t t1 : Trace)
      (r : Int),
      ht32f523xx_write link bank buffer offset count t = some (r, bank1, t1) →
      bank1 = bank ∧ bank1.sectors = bank.sectors) ∧
    (∀ (bank : flash_bank) (t : Trace),
      (ht32f523xx_mass_erase link bank t).2.1 = bank ∧
      (ht32f523xx_mass_erase link bank t).2.1.sectors = bank.sectors) := by
  refine ⟨?_, ?_⟩
  · intro bank bank1 buffer offset count t t1 r h
    have hb : bank1 = bank := by
      unfold ht32f523xx_write at h
      split_ifs at h
      · simp only [Option.some.injEq, Prod.mk.injEq] at h; exact h.2.1.symm
      · simp only [Option.some.injEq, Prod.mk.injEq] at h; exact h.2.1.symm
      · simp only [Option.some.injEq, Prod.mk.injEq] at h; exact h.2.1.symm
      · split at h
        · cases h
        · simp only [Option.some.injEq, Prod.mk.injEq] at h; exact h.2.1.symm
    exact ⟨hb, by rw [hb]⟩
  · intro bank t
    have hb := mass_erase_bank link bank t
    exact ⟨hb, by rw [hb]⟩

/-- Instance of C15: a successful write of the test pattern on the bank whose sectors 1 and
2 are marked erased leaves the marks in place. -/
theorem write_and_mass_erase_keep_bank_witness :
    ht32f523xx_write (const_link 0x1C) demo_bank_erased test_write_buffer 0 32 []
      = some (ERROR_OK, demo_bank_erased, spec_test_write_programs) ∧
    (demo_bank_erased = demo_bank_erased ∧
      demo_bank_erased.sectors = demo_bank_erased.sectors) :=
  ⟨by decide,
   (write_and_mass_erase_keep_bank (const_link 0x1C)).1 demo_bank_erased demo_bank_erased
    test_write_buffer 0 32 [] spec_test_write_programs ERROR_OK (by decide)⟩

/-! ## The accesses of erase and of mass erase -/

/-- A poll against a link whose status reads all report ready (finished or start): one
read. -/
theorem wait_status_busy_ready (link : Link)
    (hr : ∀ t, (ht32f523xx_get_flash_status link t).1 = ERROR_OK ∧
      (((ht32f523xx_get_flash_status link t).2.1 &&& 0x1E) = 0x1C ∨
       ((ht32f523xx_get_flash_status link t).2.1 &&& 0x1E) = 0x0C))
    (timeout : Int) (t : Trace) :
    ht32f523xx_wait_status_busy link timeout t = (ERROR_OK, t ++ [Event.read 0x40080010]) := by
  unfold ht32f523xx_wait_status_busy
  rw [wait_status_busy_loop_eq, if_neg (not_not.mpr (hr t).1), if_pos (hr t).2]

/-- The erase loop against a link whose writes succeed and whose status reads report ready:
it succeeds, with one page-erase transaction per sector, in increasing order. -/
theorem erase_loop_ready (link : Link)
    (hw : ∀ t a v, link.write_u32 t a v = ERROR_OK)
    (hr : ∀ t, (ht32f523xx_get_flash_status link t).1 = ERROR_OK ∧
      (((ht32f523xx_get_flash_status link t).2.1 &&& 0x1E) = 0x1C ∨
       ((ht32f523xx_get_flash_status link t).2.1 &&& 0x1E) = 0x0C)) :
    ∀ (n i : Nat) (bank : flash_bank) (t : Trace), i + n ≤ bank.sectors.length →
      ∃ bank1, erase_loop link n i bank t
        = some (ERROR_OK, bank1,
            t ++ ((List.range n).map (fun k =>
              spec_page_erase (sector_offset bank.sectors (i + k)))).flatten) := by
  intro n
  induction n with
  | zero =>
    intro i bank t _
    exact ⟨bank, by simp [erase_loop]⟩
  | succ n ih =>
    intro i bank t hlen
    have hi : i < bank.sectors.length := by omega
    have hs : bank.sectors[i]? = some bank.sectors[i] := List.getElem?_eq_getElem hi
    rw [erase_loop_succ_eq link n i bank t _ hs]
    simp only [hw, ne_eq, not_true_eq_false, if_false, wait_status_busy_ready link hr]
    obtain ⟨bank1, h1⟩ := ih (i + 1)
      { bank with sectors := bank.sectors.set i { bank.sectors[i] with is_erased := 1 } }
      (t ++ [Event.write 0x40080000 bank.sectors[i].offset, Event.write 0x4008000C 0x8,
             Event.write 0x40080010 0x14] ++ [Event.read 0x40080010])
      (by simp only [List.length_set]; omega)
    refine ⟨bank1, ?_⟩
    rw [h1]
    have em : (List.range (n + 1)).map
          (fun k => spec_page_erase (sector_offset bank.sectors (i + k)))
        = spec_page_erase (sector_offset bank.sectors i) ::
            (List.range n).map (fun k =>
              spec_page_erase (sector_offset
                (bank.sectors.set i { bank.sectors[i] with is_erased := 1 }) (i + 1 + k))) := by
      rw [List.range_succ_eq_map, List.map_cons, List.map_map]
      congr 1
      apply List.map_congr_left
      intro k _
      simp only [Function.comp, Nat.succ_eq_add_one, sector_offset]
      rw [List.getElem?_set_ne (by omega)]
      have e : i + (k + 1) = i + 1 + k := by omega
      rw [e]
    rw [em, List.flatten_cons]
    simp [spec_page_erase, sector_offset, hs]

/-- C16: on a halted bank and a valid range `[first, last]`, against a link whose writes
succeed and whose status reads report ready, `ht32f523xx_erase` returns success and the
accesses it makes are exactly, for `i = first, first + 1, ..., last` in this order, Address
`0x40080000 <- sectors[i].offset`, Command `0x4008000C <- 0x8`, Control
`0x40080010 <- 0x14` and one status read, the read of sector `i` coming before the address
write of sector `i + 1`; there is no write to the data register and no other access. -/
theorem erase_issues_page_erases (link : Link) (bank : flash_bank) (first last : Nat)
    (t : Trace)
    (hw : ∀ t a v, link.write_u32 t a v = ERROR_OK)
    (hr : ∀ t, (ht32f523xx_get_flash_status link t).1 = ERROR_OK ∧
      (((ht32f523xx_get_flash_status link t).2.1 &&& 0x1E) = 0x1C ∨
       ((ht32f523xx_get_flash_status link t).2.1 &&& 0x1E) = 0x0C))
    (hhalted : bank.target.state = target_state.TARGET_HALTED)
    (hfirst : first ≤ last) (hlast : last < bank.sectors.length) :
    (∃ bank1, ht32f523xx_erase link bank first last t
      = some (ERROR_OK, bank1,
          t ++ ((List.range (last + 1 - first)).map (fun k =>
            [Event.write 0x40080000 (sector_offset bank.sectors (first + k)),
             Event.write 0x4008000C 0x8,
             Event.write 0x40080010 0x14,
             Event.read 0x40080010])).flatten)) ∧
    (∀ k, k < last + 1 - first →
      ∃ s, bank.sectors[first + k]? = some s ∧
        sector_offset bank.sectors (first + k) = s.offset) := by
  constructor
  · unfold ht32f523xx_erase
    rw [if_neg (not_not.mpr hhalted)]
    exact erase_loop_ready link hw hr (last + 1 - first) first bank t (by omega)
  · intro k hk
    have hi : first + k < bank.sectors.length := by omega
    refine ⟨bank.sectors[first + k], List.getElem?_eq_getElem hi, ?_⟩
    simp [sector_offset, List.getElem?_eq_getElem hi]

/-- Instance of C16: the erase of sectors 1 and 2 of the four-sector bank on a link that
reports the start code. -/
theorem erase_issues_page_erases_witness :
    (∃ bank1, ht32f523xx_erase (const_link 0x0C) demo_bank 1 2 []
      = some (ERROR_OK, bank1,
          [] ++ ((List.range (2 + 1 - 1)).map (fun k =>
            [Event.write 0x40080000 (sector_offset demo_bank.sectors (1 + k)),
             Event.write 0x4008000C 0x8,
             Event.write 0x40080010 0x14,
             Event.read 0x40080010])).flatten)) ∧
    (∀ k, k < 2 + 1 - 1 →
      ∃ s, demo_bank.sectors[1 + k]? = some s ∧
        sector_offset demo_bank.sectors (1 + k) = s.offset) :=
  erase_issues_page_erases (const_link 0x0C) demo_bank 1 2 [] (fun _ _ _ => rfl)
    (fun _ => ⟨rfl, Or.inr (show ((0x0C % 2 ^ 32) &&& 0x1E) = 0x0C by decide)⟩)
    (by decide) (by decide) (by decide)

/-- The poll starts with a status read and makes no register write. -/
theorem wait_status_busy_loop_trace (link : Link) :
    ∀ (n : Nat) (t : Trace),
      (∃ rest, (wait_status_busy_loop link n t).2 = t ++ Event.read 0x40080010 :: rest) ∧
      writes (wait_status_busy_loop link n t).2 = writes t := by
  intro n
  induction n with
  | zero =>
    intro t
    rw [wait_status_busy_loop_eq]
    split_ifs <;>
      exact ⟨⟨[], rfl⟩, by simp [writes, Event.is_write, List.countP_cons]⟩
  | succ n ih =>
    intro t
    rw [wait_status_busy_loop_eq]
    split_ifs
    · exact ⟨⟨[], rfl⟩, by simp [writes, Event.is_write, List.countP_cons]⟩
    · exact ⟨⟨[], rfl⟩, by simp [writes, Event.is_write, List.countP_cons]⟩
    · obtain ⟨⟨rest, hrest⟩, hwr⟩ := ih (t ++ [Event.read 0x40080010, Event.sleep 10])
      refine ⟨⟨Event.sleep 10 :: Event.read 0x40080010 :: rest, ?_⟩, ?_⟩
      · simp only [hrest, List.append_assoc, List.cons_append, List.nil_append]
      · simp only [hwr]
        simp [writes, Event.is_write, List.countP_cons]

/-- C17: on a halted bank, against a link whose writes succeed, `ht32f523xx_mass_erase`
issues exactly two register writes, Command `0x4008000C <- 0xA` then Control
`0x40080010 <- 0x14`, with no write to the address or data register and no status read
before the commit; it then polls with the budget `FLASH_ERASE_TIMEOUT = 1000` that erase
uses, the first access of the poll being a status read, and it returns the result of the
poll with the bank unchanged. -/
theorem mass_erase_issues_two_writes (link : Link) (bank : flash_bank) (t : Trace)
    (hhalted : bank.target.state = target_state.TARGET_HALTED)
    (hw : ∀ t a v, link.write_u32 t a v = ERROR_OK) :
    ht32f523xx_mass_erase link bank t
      = ((ht32f523xx_wait_status_busy link FLASH_ERASE_TIMEOUT
            (t ++ [Event.write 0x4008000C 0xA, Event.write 0x40080010 0x14])).1,
         bank,
         (ht32f523xx_wait_status_busy link FLASH_ERASE_TIMEOUT
            (t ++ [Event.write 0x4008000C 0xA, Event.write 0x40080010 0x14])).2) ∧
    FLASH_ERASE_TIMEOUT = 1000 ∧
    (∃ rest, (ht32f523xx_mass_erase link bank t).2.2
      = t ++ [Event.write 0x4008000C 0xA, Event.write 0x40080010 0x14,
              Event.read 0x40080010] ++ rest) ∧
    writes (ht32f523xx_mass_erase link bank t).2.2 = writes t + 2 := by
  have heq : ht32f523xx_mass_erase link bank t
      = ((ht32f523xx_wait_status_busy link FLASH_ERASE_TIMEOUT
            (t ++ [Event.write 0x4008000C 0xA, Event.write 0x40080010 0x14])).1,
         bank,
         (ht32f523xx_wait_status_busy link FLASH_ERASE_TIMEOUT
            (t ++ [Event.write 0x4008000C 0xA, Event.write 0x40080010 0x14])).2) := by
    rw [mass_erase_eq link bank t hhalted]
    simp only [hw, ne_eq, not_true_eq_false, if_false]
    show (if _ then _ else _) = _
    split_ifs with h3
    · exact Prod.ext h3.symm rfl
    · rfl
  obtain ⟨⟨rest, hrest⟩, hwr⟩ := wait_status_busy_loop_trace link FLASH_ERASE_TIMEOUT.toNat
    (t ++ [Event.write 0x4008000C 0xA, Event.write 0x40080010 0x14])
  refine ⟨heq, rfl, ⟨rest, ?_⟩, ?_⟩
  · rw [heq]
    show (wait_status_busy_loop link FLASH_ERASE_TIMEOUT.toNat _).2 = _
    rw [hrest]
    simp
  · rw [heq]
    show writes (wait_status_busy_loop link FLASH_ERASE_TIMEOUT.toNat _).2 = _
    rw [hwr]
    simp [writes, Event.is_write, List.countP_cons]

/-- Instance of C17: a mass erase of the four-sector bank on a link that never reports
ready. -/
theorem mass_erase_issues_two_writes_witness :
    ht32f523xx_mass_erase (const_link 0x14) demo_bank []
      = ((ht32f523xx_wait_status_busy (const_link 0x14) FLASH_ERASE_TIMEOUT
            ([] ++ [Event.write 0x4008000C 0xA, Event.write 0x40080010 0x14])).1,
         demo_bank,
         (ht32f523xx_wait_status_busy (const_link 0x14) FLASH_ERASE_TIMEOUT
            ([] ++ [Event.write 0x4008000C 0xA, Event.write 0x40080010 0x14])).2) ∧
    FLASH_ERASE_TIMEOUT = 1000 ∧
    (∃ rest, (ht32f523xx_mass_erase (const_link 0x14) demo_bank []).2.2
      = [] ++ [Event.write 0x4008000C 0xA, Event.write 0x40080010 0x14,
              Event.read 0x40080010] ++ rest) ∧
    writes (ht32f523xx_mass_erase (const_link 0x14) demo_bank []).2.2 = writes [] + 2 :=
  mass_erase_issues_two_writes (const_link 0x14) demo_bank [] (by decide) (fun _ _ _ => rfl)

/-! ## Protection check: what the decode reads -/

/-- The decoded bit of page pair `i` is bit 0 of its word when `i % 32 = 0`, and 0
otherwise: the left shift moves every bit of the word away from position 0. -/
theorem page_pair_bit_eq (ob_pp : List Nat) (i : Nat) :
    page_pair_bit ob_pp i = if i % 32 = 0 then (ob_pp.getD (i / 32) 0) % 2 else 0 := by
  unfold page_pair_bit
  rw [Nat.and_one_is_mod, Nat.shiftLeft_eq,
    Nat.mod_mod_of_dvd _ (show 2 ∣ 2 ^ 32 from ⟨2 ^ 31, by norm_num⟩)]
  by_cases h0 : i % 32 = 0
  · rw [if_pos h0, h0, Nat.pow_zero, Nat.mul_one]
  · rw [if_neg h0]
    obtain ⟨k, hk⟩ : ∃ k, i % 32 = k + 1 := ⟨i % 32 - 1, by omega⟩
    rw [hk, Nat.pow_succ, ← Nat.mul_assoc]
    exact Nat.mul_mod_left _ _

/-- C18: on a bank with at least 256 sectors, for the four 32-bit protection words
`w0 .. w3` that the reads deliver and every page pair `i < 128`,
`ht32f523xx_protect_check` gives the sectors `2i` and `2i + 1` the same protected-state,
`not bit` with `bit = ((w[i / 32] << (i % 32)) mod 2^32) & 1`: the pair is marked
unprotected (0) exactly when `i % 32 = 0` and bit 0 of `w[i / 32]` is 1, and protected (1)
otherwise.  The decode reads bit 0 of each word only; it differs from the right-shift decode
`(w[i / 32] >> (i % 32)) & 1`, for the word 2 and the pair 1 for one. -/
theorem protect_check_decodes_bit_zero (link : Link) (bank : flash_bank) (t : Trace)
    (w0 w1 w2 w3 : Nat) (hlen : 256 ≤ bank.sectors.length)
    (hwords : (read_ob_pp link 4 0 t).1 = [w0, w1, w2, w3]) :
    (∃ bank1 t1, ht32f523xx_protect_check link bank t = some (ERROR_OK, bank1, t1) ∧
      ∀ i, i < 128 →
        ∃ s0 s1, bank.sectors[2 * i]? = some s0 ∧ bank.sectors[2 * i + 1]? = some s1 ∧
          bank1.sectors[2 * i]? = some { s0 with is_protected :=
            if ((([w0, w1, w2, w3].getD (i / 32) 0) <<< (i % 32)) % 2 ^ 32) &&& 1 ≠ 0
            then 0 else 1 } ∧
          bank1.sectors[2 * i + 1]? = some { s1 with is_protected :=
            if ((([w0, w1, w2, w3].getD (i / 32) 0) <<< (i % 32)) % 2 ^ 32) &&& 1 ≠ 0
            then 0 else 1 } ∧
          (((([w0, w1, w2, w3].getD (i / 32) 0) <<< (i % 32)) % 2 ^ 32) &&& 1 ≠ 0
            ↔ i % 32 = 0 ∧ ([w0, w1, w2, w3].getD (i / 32) 0) % 2 = 1)) ∧
    ((((([2, 0, 0, 0] : List Nat).getD (1 / 32) 0) <<< (1 % 32)) % 2 ^ 32) &&& 1 = 0 ∧
      ((([2, 0, 0, 0] : List Nat).getD (1 / 32) 0) >>> (1 % 32)) &&& 1 = 1) := by
  refine ⟨?_, by decide⟩
  obtain ⟨out, hpc, -, hget⟩ := protect_check_spec link bank t hlen
  refine ⟨_, _, hpc, ?_⟩
  intro i hi
  have g0 : 2 * i < bank.sectors.length := by omega
  have g1 : 2 * i + 1 < bank.sectors.length := by omega
  have d0 : 2 * i / 2 = i := by omega
  have d1 : (2 * i + 1) / 2 = i := by omega
  refine ⟨bank.sectors[2 * i], bank.sectors[2 * i + 1], List.getElem?_eq_getElem g0,
    List.getElem?_eq_getElem g1, ?_, ?_, ?_⟩
  · show out[2 * i]? = _
    rw [hget (2 * i), if_pos (by omega), List.getElem?_eq_getElem g0, d0, hwords]
    rfl
  · show out[2 * i + 1]? = _
    rw [hget (2 * i + 1), if_pos (by omega), List.getElem?_eq_getElem g1, d1, hwords]
    rfl
  · have hb := page_pair_bit_eq [w0, w1, w2, w3] i
    unfold page_pair_bit at hb
    rw [hb]
    by_cases h0 : i % 32 = 0
    · rw [if_pos h0]
      constructor
      · intro h; exact ⟨h0, by omega⟩
      · intro h; omega
    · rw [if_neg h0]
      constructor
      · intro h; exact absurd rfl h
      · intro h; exact absurd h.1 h0

/-- Instance of C18: the 256-sector bank and the words `1, 2, 0xFFFFFFFE, 0xFFFFFFFF`. -/
theorem protect_check_decodes_bit_zero_witness :
    (∃ bank1 t1,
      ht32f523xx_protect_check (words_link [1, 2, 0xFFFFFFFE, 0xFFFFFFFF]) bank256 []
        = some (ERROR_OK, bank1, t1) ∧
      ∀ i, i < 128 →
        ∃ s0 s1, bank256.sectors[2 * i]? = some s0 ∧ bank256.sectors[2 * i + 1]? = some s1 ∧
          bank1.sectors[2 * i]? = some { s0 with is_protected :=
            if ((([1, 2, 0xFFFFFFFE, 0xFFFFFFFF].getD (i / 32) 0) <<< (i % 32)) % 2 ^ 32)
              &&& 1 ≠ 0
            then 0 else 1 } ∧
          bank1.sectors[2 * i + 1]? = some { s1 with is_protected :=
            if ((([1, 2, 0xFFFFFFFE, 0xFFFFFFFF].getD (i / 32) 0) <<< (i % 32)) % 2 ^ 32)
              &&& 1 ≠ 0
            then 0 else 1 } ∧
          (((([1, 2, 0xFFFFFFFE, 0xFFFFFFFF].getD (i / 32) 0) <<< (i % 32)) % 2 ^ 32) &&& 1 ≠ 0
            ↔ i % 32 = 0 ∧ ([1, 2, 0xFFFFFFFE, 0xFFFFFFFF].getD (i / 32) 0) % 2 = 1)) ∧
    ((((([2, 0, 0, 0] : List Nat).getD (1 / 32) 0) <<< (1 % 32)) % 2 ^ 32) &&& 1 = 0 ∧
      ((([2, 0, 0, 0] : List Nat).getD (1 / 32) 0) >>> (1 % 32)) &&& 1 = 1) :=
  protect_check_decodes_bit_zero (words_link [1, 2, 0xFFFFFFFE, 0xFFFFFFFF]) bank256 []
    1 2 0xFFFFFFFE 0xFFFFFFFF (by rw [show bank256.sectors.length = 256 from
      probe_sectors_length 512 256]) (by decide)

/-! ## Protection check: the sectors it indexes -/

/-- When the sector array ends before the last page pair, the decoding loop indexes a
sector outside the array. -/
theorem protect_loop_none (ob_pp : List Nat) :
    ∀ (n i : Nat) (sectors : List flash_sector),
      2 * i ≤ sectors.length → sectors.length < 2 * (i + n) →
      protect_loop ob_pp n i sectors = none := by
  intro n
  induction n with
  | zero =>
    intro i sectors h1 h2
    omega
  | succ n ih =>
    intro i sectors h1 h2
    rw [protect_loop]
    by_cases g1 : 2 * i + 1 < sectors.length
    · have g0 : 2 * i < sectors.length := by omega
      simp only [sector_store, List.getElem?_eq_getElem g0]
      have g1s : 2 * i + 1 < (sectors.set (2 * i)
          { sectors[2 * i] with
            is_protected := if page_pair_bit ob_pp i ≠ 0 then 0 else 1 }).length := by
        simp only [List.length_set]; omega
      simp only [List.getElem?_eq_getElem g1s]
      exact ih (i + 1) _ (by simp only [List.length_set]; omega)
        (by simp only [List.length_set]; omega)
    · by_cases g0 : 2 * i < sectors.length
      · simp only [sector_store, List.getElem?_eq_getElem g0]
        have g1n : (sectors.set (2 * i)
            { sectors[2 * i] with
              is_protected := if page_pair_bit ob_pp i ≠ 0 then 0 else 1 })[2 * i + 1]?
            = none := by
          apply List.getElem?_eq_none
          simp only [List.length_set]; omega
        simp only [g1n]
      · have g0n : sectors[2 * i]? = none := List.getElem?_eq_none (by omega)
        simp only [sector_store, g0n]

/-- C19: `ht32f523xx_protect_check` stores into the sectors `0 .. 255` whatever the sector
count is.  It stays inside the sector array (the model returns a result) if and only if the
bank has at least 256 sectors; then it returns success, the array keeps its length, the
sectors from index 256 on are untouched and no sector has its offset, size or `is_erased`
changed, nor any other field of the bank.  After probe the bank has at least 256 sectors
exactly when its size is at least 131072 bytes; a probed bank of a smaller size makes the
check index a sector that does not exist. -/
theorem protect_check_needs_256_sectors (link : Link) :
    (∀ (bank : flash_bank) (t : Trace),
      (ht32f523xx_protect_check link bank t).isSome = true ↔ 256 ≤ bank.sectors.length) ∧
    (∀ (bank : flash_bank) (t : Trace), 256 ≤ bank.sectors.length →
      ∃ bank1 t1, ht32f523xx_protect_check link bank t = some (ERROR_OK, bank1, t1) ∧
        bank1.sectors.length = bank.sectors.length ∧
        (∀ j, 256 ≤ j → bank1.sectors[j]? = bank.sectors[j]?) ∧
        (∀ (j : Nat) (s s1 : flash_sector), bank.sectors[j]? = some s →
          bank1.sectors[j]? = some s1 →
          s1.offset = s.offset ∧ s1.size = s.size ∧ s1.is_erased = s.is_erased) ∧
        bank1.target = bank.target ∧ bank1.base = bank.base ∧ bank1.size = bank.size ∧
        bank1.num_sectors = bank.num_sectors) ∧
    (∀ (bank : flash_bank) (t : Trace),
      ((ht32f523xx_protect_check link (ht32f523xx_probe bank).2 t).isSome = true
        ↔ 131072 ≤ bank.size) ∧
      (bank.size < 131072 →
        ht32f523xx_protect_check link (ht32f523xx_probe bank).2 t = none)) := by
  have hnone : ∀ (bank : flash_bank) (t : Trace), bank.sectors.length < 256 →
      ht32f523xx_protect_check link bank t = none := by
    intro bank t hlt
    unfold ht32f523xx_protect_check
    simp only [protect_loop_none _ 128 0 bank.sectors (by omega) (by omega)]
  have hiff : ∀ (bank : flash_bank) (t : Trace),
      (ht32f523xx_protect_check link bank t).isSome = true ↔ 256 ≤ bank.sectors.length := by
    intro bank t
    constructor
    · intro h
      by_contra hlt
      rw [hnone bank t (by omega)] at h
      exact absurd h (by decide)
    · intro h
      obtain ⟨out, hpc, -, -⟩ := protect_check_spec link bank t h
      rw [hpc]
      rfl
  have hplen : ∀ bank : flash_bank,
      (ht32f523xx_probe bank).2.sectors.length = bank.size / 512 :=
    fun bank => probe_sectors_length 512 (bank.size / 512)
  refine ⟨hiff, ?_, ?_⟩
  · intro bank t h
    obtain ⟨out, hpc, hl, hget⟩ := protect_check_spec link bank t h
    refine ⟨_, _, hpc, hl, ?_, ?_, rfl, rfl, rfl, rfl⟩
    · intro j hj
      show out[j]? = _
      rw [hget j, if_neg (by omega)]
    · intro j s s1 hs hs1
      have hs1o : out[j]? = some s1 := hs1
      rw [hget j, hs] at hs1o
      by_cases hj : j < 256
      · rw [if_pos hj] at hs1o
        have e := Option.some.inj hs1o
        rw [← e]
        exact ⟨rfl, rfl, rfl⟩
      · rw [if_neg hj] at hs1o
        have e := Option.some.inj hs1o
        rw [← e]
        exact ⟨rfl, rfl, rfl⟩
  · intro bank t
    constructor
    · rw [hiff, hplen]
      omega
    · intro hlt
      exact hnone _ t (by rw [hplen]; omega)

/-- Instance of C19: the 256-sector bank is checked, the four-sector bank is not. -/
theorem protect_check_needs_256_sectors_witness :
    (∃ bank1 t1,
      ht32f523xx_protect_check (const_link 0x1C) bank256_erased [] = some (ERROR_OK, bank1, t1) ∧
        bank1.sectors.length = bank256_erased.sectors.length ∧
        (∀ j, 256 ≤ j → bank1.sectors[j]? = bank256_erased.sectors[j]?) ∧
        (∀ (j : Nat) (s s1 : flash_sector), bank256_erased.sectors[j]? = some s →
          bank1.sectors[j]? = some s1 →
          s1.offset = s.offset ∧ s1.size = s.size ∧ s1.is_erased = s.is_erased) ∧
        bank1.target = bank256_erased.target ∧ bank1.base = bank256_erased.base ∧
        bank1.size = bank256_erased.size ∧
        bank1.num_sectors = bank256_erased.num_sectors) ∧
    ht32f523xx_protect_check (const_link 0x1C)
      (ht32f523xx_probe (blank_bank target_state.TARGET_HALTED 2048)).2 [] = none :=
  ⟨(protect_check_needs_256_sectors (const_link 0x1C)).2.1 bank256_erased []
      (by simp [bank256_erased, bank256, ht32f523xx_probe, probe_sectors_length, blank_bank]),
   ((protect_check_needs_256_sectors (const_link 0x1C)).2.2
      (blank_bank target_state.TARGET_HALTED 2048) []).2 (by decide)⟩

/-! ## The mass-erase command -/

/-- C20: once the argument check has passed (`argc ≥ 6`) and the bank is resolved, on a bank
whose sector count is the length of its sector array, the handler of the mass-erase command
returns `ERROR_OK` whatever the engine `ht32f523xx_mass_erase` returned; it leaves the trace
of the engine; and the bank it leaves has `is_erased = 1` on every sector when the engine
returned `ERROR_OK` and is the bank as it was when the engine failed (target not halted,
link failure or timeout). -/
theorem mass_erase_command_hides_failure (link : Link) (argc : Nat) (bank : flash_bank)
    (t : Trace) (hargc : 6 ≤ argc) (hcount : bank.num_sectors = bank.sectors.length) :
    ht32f523xx_handle_mass_erase_command link argc ERROR_OK bank t
      = some (ERROR_OK,
          if (ht32f523xx_mass_erase link bank t).1 = ERROR_OK then
            { bank with sectors := bank.sectors.map (fun x => { x with is_erased := 1 }) }
          else bank,
          (ht32f523xx_mass_erase link bank t).2.2) := by
  unfold ht32f523xx_handle_mass_erase_command
  have hb := mass_erase_bank link bank t
  rw [if_neg (by omega), if_neg (not_not.mpr rfl)]
  simp only []
  rw [hb]
  by_cases hr : (ht32f523xx_mass_erase link bank t).1 = ERROR_OK
  · rw [if_pos hr, if_pos hr, if_pos (by omega), hcount, List.take_length, List.drop_length,
      List.append_nil]
  · rw [if_neg hr, if_neg hr]

/-- Instance of C20: the command on the four-sector bank on a ready link, and on a link that
never reports ready. -/
theorem mass_erase_command_hides_failure_witness :
    ht32f523xx_handle_mass_erase_command (const_link 0x1C) 6 ERROR_OK demo_bank []
      = some (ERROR_OK,
          if (ht32f523xx_mass_erase (const_link 0x1C) demo_bank []).1 = ERROR_OK then
            { demo_bank with
              sectors := demo_bank.sectors.map (fun x => { x with is_erased := 1 }) }
          else demo_bank,
          (ht32f523xx_mass_erase (const_link 0x1C) demo_bank []).2.2) ∧
    ht32f523xx_handle_mass_erase_command (const_link 0x14) 6 ERROR_OK demo_bank []
      = some (ERROR_OK,
          if (ht32f523xx_mass_erase (const_link 0x14) demo_bank []).1 = ERROR_OK then
            { demo_bank with
              sectors := demo_bank.sectors.map (fun x => { x with is_erased := 1 }) }
          else demo_bank,
          (ht32f523xx_mass_erase (const_link 0x14) demo_bank []).2.2) :=
  ⟨mass_erase_command_hides_failure (const_link 0x1C) 6 demo_bank [] (by decide) (by decide),
   mass_erase_command_hides_failure (const_link 0x14) 6 demo_bank [] (by decide) (by decide)⟩

end HT32F523xx
